import Mathlib

set_option maxHeartbeats 1000000
set_option synthInstance.maxSize 1024

/-!
Shallow embedding of the multi-run consensus and reconciliation engine of
`src/aggregation.py`, together with the validity-filter / repair slice of
`src/run_batch_pipeline.py`, `src/parse_batch_results.py` and
`src/extractors.py`.

Modelling conventions:
* Python strings are lists of characters (`Str`); `str.strip` is `pyStrip`
  (whitespace on both ends), `str.lower` is `pyLower`.
* Python numbers are rationals (`ℚ`); `None` is `Option.none`.  The
  `ValueNumeric` cell of a row is produced by the pipeline either as a
  number or as an empty value (`""`/`None`/`NaN`, which the code treats
  alike), so it is modelled as `Option ℚ`.
* Python dicts are association lists; `dict.get` is `alookup`,
  `dict[k] = v` is `ainsert` (replace in place, else append), matching
  insertion-ordered dict semantics.
* `collections.Counter` over a list is `pyCounter`; `most_common(1)[0][0]`
  is `mostCommon` (highest count, ties broken by first encounter, exactly
  as `heapq.nlargest(1)` over an insertion-ordered `Counter`).
-/

abbrev Str := List Char

/-- Python `s.strip()`: drop whitespace from both ends. -/
def pyStrip (s : Str) : Str :=
  ((s.dropWhile Char.isWhitespace).reverse.dropWhile Char.isWhitespace).reverse

/-- Python `s.lower()`. -/
def pyLower (s : Str) : Str := s.map Char.toLower

/-- Python `s or t` for strings: `t` when `s` is empty, else `s`. -/
def pyOr (s t : Str) : Str := if s = [] then t else s

/-- `strStarts p s` is Python `s.startswith(p)`. -/
def strStarts : Str → Str → Bool
  | [], _ => true
  | _ :: _, [] => false
  | a :: p, b :: s => a == b && strStarts p s

/-- Association-list version of Python `dict.get` (first binding wins;
dicts never hold duplicate keys). -/
def alookup {κ β : Type} [DecidableEq κ] : List (κ × β) → κ → Option β
  | [], _ => none
  | (k, v) :: t, key => if k = key then some v else alookup t key

/-- Association-list version of Python `dict[k] = v`: replace the existing
binding in place, else append at the end. -/
def ainsert {κ β : Type} [DecidableEq κ] : List (κ × β) → κ → β → List (κ × β)
  | [], key, v => [(key, v)]
  | (k, w) :: t, key, v => if k = key then (k, v) :: t else (k, w) :: ainsert t key v

/-- `LOCATION_PREFIXES` of `aggregation.py`: descriptor headers stripped
(once) from the front of a location string. -/
def LOCATION_DESCRIPTORS : List Str :=
  [("Wind - ").data,
   ("Precipitation - ").data,
   ("Weather and Precipitation - ").data,
   ("Weather & Precipitation - ").data,
   ("Temperature - ").data]

/-- `LOCATION_PLACEHOLDER_VALUES` of `aggregation.py`. -/
def LOCATION_PLACEHOLDER_VALUES : List Str :=
  [[], ("unknown").data, ("n/a").data, ("na").data, ("none").data]

/-- `PRECIP_TYPE_ALIASES` of `aggregation.py`. -/
def PRECIP_TYPE_ALIASES : List (Str × Str) :=
  [(("None").data, ("No Precip").data),
   (("none").data, ("No Precip").data),
   (("No precip").data, ("No Precip").data),
   (("no precip").data, ("No Precip").data)]

/-- The `for prefix in LOCATION_PREFIXES: if stripped.startswith(...)`
loop of `normalize_location_string`: strip the first matching descriptor,
then stop. -/
def stripDescriptorOnce (s : Str) : Str :=
  match LOCATION_DESCRIPTORS.find? (fun p => strStarts p s) with
  | some p => s.drop p.length
  | none => s

/-- Matcher for the regex `\((\d+)\s*m\)$` of `normalize_location_string`,
run on the reversed string: expects `)` then `m` then whitespace* then at
least one digit then `(`.  Returns the digit group (in forward order) and
the reversed remainder before the match. -/
def revMetresSplit (r : Str) : Option (Str × Str) :=
  match r with
  | c0 :: c1 :: r2 =>
    if c0 = ')' ∧ c1 = 'm' then
      let r3 := r2.dropWhile Char.isWhitespace
      let digs := r3.takeWhile Char.isDigit
      let r4 := r3.dropWhile Char.isDigit
      if digs = [] then none
      else
        match r4 with
        | c2 :: tail => if c2 = '(' then some (digs.reverse, tail) else none
        | [] => none
    else none
  | _ => none

/-- `normalize_location_string` of `aggregation.py`: trim; collapse
placeholders to `""`; strip one leading descriptor; trim; rewrite a
trailing `(<digits>m)` to `(<digits> metres)`. -/
def normalize_location_string (value : Option Str) : Str :=
  match value with
  | none => []
  | some v =>
    let stripped := pyStrip v
    if pyLower stripped ∈ LOCATION_PLACEHOLDER_VALUES then []
    else
      let s2 := pyStrip (stripDescriptorOnce stripped)
      match revMetresSplit s2.reverse with
      | some (digs, tailRev) =>
          tailRev.reverse ++ '(' :: (digs ++ (" metres)").data)
      | none => s2

/-- `normalize_precip_type` of `aggregation.py`: trim, then canonicalize a
known "no precipitation" alias by exact-then-lowercased lookup. -/
def normalize_precip_type (value : Option Str) : Str :=
  match value with
  | none => []
  | some v =>
    let stripped := pyStrip v
    if stripped = [] then []
    else
      match alookup PRECIP_TYPE_ALIASES stripped with
      | some a => a
      | none => (alookup PRECIP_TYPE_ALIASES (pyLower stripped)).getD stripped

/-- `normalize_text_value` of `aggregation.py`. -/
def normalize_text_value (sec mtype : Str) (value : Option Str) : Str :=
  let raw := pyStrip (value.getD [])
  if sec = ("Precip").data ∧ mtype = ("Type").data then
    normalize_precip_type (some raw)
  else raw

example : normalize_location_string (some ("Wind - Ben Nevis (1345m)").data)
    = ("Ben Nevis (1345 metres)").data := by decide

example : normalize_location_string (some ("unknown").data) = [] := by decide

example : normalize_location_string (some ("Wind - none").data) = ("none").data := by decide

/-! ### Counter / voting primitives -/

/-- `Counter.most_common(1)[0][0]`: the value with the highest occurrence
count, ties broken by first encounter (an insertion-ordered `Counter`
iterated by `heapq.nlargest(1)` keeps the earliest key among maxima). -/
def mostCommon {α : Type} [DecidableEq α] (l : List α) : Option α :=
  match l with
  | [] => none
  | a :: _ => some (l.foldl (fun best x => if l.count best < l.count x then x else best) a)

/-- Helper for `firstOccurrences`: keep the elements not yet seen. -/
def firstOccurrencesAux {α : Type} [DecidableEq α] : List α → List α → List α
  | [], _ => []
  | a :: t, seen =>
    if a ∈ seen then firstOccurrencesAux t seen
    else a :: firstOccurrencesAux t (a :: seen)

/-- The distinct values of `l` in first-encounter order — the key list of
`Counter(l)`. -/
def firstOccurrences {α : Type} [DecidableEq α] (l : List α) : List α :=
  firstOccurrencesAux l []

/-- One `Counter.update([x])` step on an insertion-ordered count table. -/
def counterUpdate {α : Type} [DecidableEq α] (c : List (α × Nat)) (x : α) : List (α × Nat) :=
  match c with
  | [] => [(x, 1)]
  | (k, n) :: t => if k = x then (k, n + 1) :: t else (k, n) :: counterUpdate t x

/-- `collections.Counter(l)` as an insertion-ordered association list. -/
def pyCounter {α : Type} [DecidableEq α] (l : List α) : List (α × Nat) :=
  l.foldl counterUpdate []

/-- Occurrence count (`Counter[x]`), pinned to the decidable-equality
`BEq` instance used throughout the voting primitives. -/
def countOcc {α : Type} [DecidableEq α] (l : List α) (x : α) : Nat :=
  l.count x

/-! ### Data model

`DataPointKey`: `(SourceFile, Page, Section, Measurement, MeasurementType,
HourIndex, HourLabel)`; `ChartKey`: `(SourceFile, Page, Section)`.  A
`Record` is one run's reading for a key (`series_to_rows` row shape). -/

abbrev Key := Str × Nat × Str × Str × Str × Nat × Str

abbrev GraphKey := Str × Nat × Str

structure Record where
  SourceFile : Str
  Page : Nat
  Location : Str
  Section : Str
  Measurement : Str
  MeasurementType : Str
  Units : Str
  HourLabel : Str
  HourIndex : Nat
  ValueNumeric : Option ℚ
  ValueText : Str
  Notes : Str
  deriving DecidableEq, Repr

/-- A `RunMap`: one complete run's mapping from `DataPointKey` to
`Record` (a Python dict, modelled as an association list). -/
abbrev RunMap := List (Key × Record)

/-- The `(SourceFile, Page, Section)` chart key of a row, as read by
`harmonize_locations` and `aggregate_runs` from the row's own fields. -/
def graphKeyOf (r : Record) : GraphKey := (r.SourceFile, r.Page, r.Section)

/-- The issue records collected per key by `aggregate_runs`. -/
inductive Issue where
  | missing_runs (runs : List Nat)
  | location_mismatch (locations : List Str)
  | text_mismatch (values : List Str) (runs : List Nat)
  | numeric_variation (values : List ℚ) (runs : List Nat) (tolerance : ℚ)
  | missing_values
  deriving DecidableEq, Repr

/-- One entry of the disagreement list: the `DataPointKey`-shaped dict,
the owning `ChartKey`, and the issues. -/
structure DisagreementEntry where
  key : Key
  graph : GraphKey
  issues : List Issue
  deriving DecidableEq, Repr

/-! ### Numeric quantization (`format_numeric_value`) -/

/-- Python 3 `round` to the nearest integer: round-half-to-even. -/
def roundHalfEven (q : ℚ) : ℤ :=
  let f := ⌊q⌋
  let r := q - f
  if r < 1/2 then f
  else if 1/2 < r then f + 1
  else if Even f then f else f + 1

/-- `format_numeric_value` of `aggregation.py`: wind rounds to whole
units, precipitation to one decimal, air temperature to one decimal,
other temperature quantities to the nearest ten, anything else to two
decimals.  (The `value is None` guard of the source is unreachable here:
the only caller passes a computed median.) -/
def format_numeric_value (sec mtype : Str) (value : ℚ) : ℚ :=
  if sec = ("Wind").data then (roundHalfEven value : ℚ)
  else if sec = ("Precip").data then (roundHalfEven (value * 10) : ℚ) / 10
  else if sec = ("Temperature").data then
    if mtype = ("AirTemp_C").data then (roundHalfEven (value * 10) : ℚ) / 10
    else ((roundHalfEven (value / 10) : ℚ) * 10)
  else (roundHalfEven (value * 100) : ℚ) / 100

/-- `statistics.median`: middle of the sorted values (mean of the two
middles for even length).  Only ever applied to non-empty lists. -/
def pyMedian (l : List ℚ) : ℚ :=
  let s := l.insertionSort (· ≤ ·)
  let n := s.length
  if n % 2 = 1 then s.getD (n / 2) 0
  else (s.getD (n / 2 - 1) 0 + s.getD (n / 2) 0) / 2

/-- Python `max` over a non-empty list. -/
def listMax (l : List ℚ) : ℚ :=
  match l with
  | [] => 0
  | a :: t => t.foldl max a

/-- Python `min` over a non-empty list. -/
def listMin (l : List ℚ) : ℚ :=
  match l with
  | [] => 0
  | a :: t => t.foldl min a

/-! ### Tolerance Resolver -/

abbrev ToleranceTable := List ((Str × Str) × ℚ)

/-- `DEFAULT_NUMERIC_TOLERANCES` of `aggregation.py`. -/
def DEFAULT_NUMERIC_TOLERANCES : ToleranceTable :=
  [((("Wind").data, ("Speed").data), 3),
   ((("Wind").data, ("Gust").data), 5),
   ((("Precip").data, ("Rain").data), 1),
   ((("Precip").data, ("Snow").data), 3/5),
   ((("Temperature").data, ("AirTemp_C").data), 7/10),
   ((("Temperature").data, ("FreezingLevel_m").data), 80),
   ((("Temperature").data, ("WBFL_m").data), 80)]

/-- Tolerance lookup of `aggregate_runs` (lines 160–162): exact
`(section, measurementType)`, else `(section, measurement)`, else the
caller-supplied default. -/
def resolveTolerance (tols : ToleranceTable) (sec mtype meas : Str) (d : ℚ) : ℚ :=
  match alookup tols (sec, mtype) with
  | some t => t
  | none => (alookup tols (sec, meas)).getD d

/-! ### Reconciler (`aggregate_runs` per-key loop body, lines 109–212) -/

/-- `rows = [run_map.get(key) for run_map in run_maps]`. -/
def rowsFor (runMaps : List RunMap) (key : Key) : List (Option Record) :=
  runMaps.map (fun m => alookup m key)

/-- `available_rows = [r for r in rows if r]` (a present `Record` dict is
never empty, so Python truthiness coincides with presence). -/
def availableRecords (runMaps : List RunMap) (key : Key) : List Record :=
  (rowsFor runMaps key).filterMap id

/-- The non-empty, normalized location candidates for a key, in run
order (line 125–127). -/
def locationCandidates (runMaps : List RunMap) (key : Key) : List Str :=
  (availableRecords runMaps key).filterMap (fun r =>
    if pyStrip r.Location ≠ [] then some (normalize_location_string (some r.Location))
    else none)

/-- The normalized non-empty text values with their run indices
(lines 139–148); `sec`/`mtype` come from the first available record. -/
def collectTexts (runMaps : List RunMap) (key : Key) (sec mtype : Str) :
    List (Str × Nat) :=
  (rowsFor runMaps key).enum.filterMap (fun p =>
    match p.2 with
    | none => none
    | some row =>
      let t := normalize_text_value sec mtype (some row.ValueText)
      if t ≠ [] then some (t, p.1) else none)

/-- The float-coercible numeric values with their run indices
(lines 149–155). -/
def collectNumerics (runMaps : List RunMap) (key : Key) : List (ℚ × Nat) :=
  (rowsFor runMaps key).enum.filterMap (fun p =>
    match p.2 with
    | none => none
    | some row =>
      match row.ValueNumeric with
      | some q => some (q, p.1)
      | none => none)

/-- The value-selection step of the per-key loop (lines 157–185):
returns `(final_numeric, final_text, value issues)`.  Text presence takes
priority; else the quantized median of the numeric values with a
tolerance-gated `numeric_variation` issue; else the first available
record's raw values with a `missing_values` issue. -/
def chooseValue (sec mtype : Str) (tolerance : ℚ) (sample : Record)
    (texts : List (Str × Nat)) (nums : List (ℚ × Nat)) :
    Option ℚ × Str × List Issue :=
  if texts ≠ [] then
    ((none : Option ℚ), (mostCommon (texts.map Prod.fst)).getD [],
      if 1 < (firstOccurrences (texts.map Prod.fst)).length then
        [Issue.text_mismatch (firstOccurrences (texts.map Prod.fst))
          (texts.map Prod.snd)]
      else [])
  else if nums ≠ [] then
    (some (format_numeric_value sec mtype (pyMedian (nums.map Prod.fst))), ([] : Str),
      if 2 ≤ (nums.map Prod.fst).length ∧
          listMax (nums.map Prod.fst) - listMin (nums.map Prod.fst) > tolerance + 1/1000000 then
        [Issue.numeric_variation (nums.map Prod.fst) (nums.map Prod.snd) tolerance]
      else [])
  else
    ((match sample.ValueNumeric with
      | some q => if q = 0 then none else some q
      | none => none),
     normalize_text_value sec mtype (some sample.ValueText),
     [Issue.missing_values])

/-- The run indices whose RunMap lacks a record for the key (line 121). -/
def missingRuns (runMaps : List RunMap) (key : Key) : List Nat :=
  (rowsFor runMaps key).enum.filterMap (fun p => if p.2 = none then some p.1 else none)

/-- The per-key body of `aggregate_runs` (lines 109–212): `none` when no
run has a record for the key (`continue`), else the merged row together
with the issue list collected for the key. -/
def reconcileKey (runMaps : List RunMap) (tols : ToleranceTable) (d : ℚ)
    (key : Key) : Option (Record × List Issue) :=
  match (availableRecords runMaps key).head? with
  | none => none
  | some sample =>
    let vs := chooseValue sample.Section sample.MeasurementType
      (resolveTolerance tols sample.Section sample.MeasurementType sample.Measurement d)
      sample (collectTexts runMaps key sample.Section sample.MeasurementType)
      (collectNumerics runMaps key)
    some
      ({ sample with
         Location := (mostCommon (locationCandidates runMaps key)).getD []
         ValueNumeric := vs.1
         ValueText := normalize_text_value sample.Section sample.MeasurementType (some vs.2.1) },
       (if missingRuns runMaps key ≠ [] then [Issue.missing_runs (missingRuns runMaps key)] else []) ++
       (if 1 < (firstOccurrences (locationCandidates runMaps key)).length then
          [Issue.location_mismatch (firstOccurrences (locationCandidates runMaps key))]
        else []) ++
       vs.2.2)

/-! ### Location Harmonizer -/

/-- The per-chart location candidates of `harmonize_locations`: the
normalized non-empty locations of all rows with chart key `g`, in row
order (the per-`graph_key` `Counter` of lines 80–85). -/
def groupLocs (vals : List Record) (g : GraphKey) : List Str :=
  vals.filterMap (fun r =>
    let loc := normalize_location_string (some r.Location)
    if graphKeyOf r = g ∧ loc ≠ [] then some loc else none)

/-- `harmonize_locations` of `aggregation.py`: group rows by chart key,
then set every row's location to the group's most frequent normalized
non-empty location (or `""` when the group has none). -/
def harmonize_locations (m : List (Key × Record)) : List (Key × Record) :=
  let vals := m.map Prod.snd
  m.map (fun kr =>
    (kr.1, { kr.2 with
             Location := (mostCommon (groupLocs vals (graphKeyOf kr.2))).getD [] }))

/-! ### `aggregate_runs` -/

/-- Python tuple comparison on `DataPointKey` (used by `sorted`): strings
lexicographically by code point, numbers by value. -/
def strLtB : Str → Str → Bool
  | [], [] => false
  | [], _ :: _ => true
  | _ :: _, [] => false
  | a :: s, b :: t =>
    if a.val < b.val then true else if b.val < a.val then false else strLtB s t

def strLeB (a b : Str) : Bool := strLtB a b || a == b

def keyLeB (a b : Key) : Bool :=
  let (s₁, p₁, c₁, m₁, t₁, h₁, l₁) := a
  let (s₂, p₂, c₂, m₂, t₂, h₂, l₂) := b
  if strLtB s₁ s₂ then true else if strLtB s₂ s₁ then false
  else if p₁ < p₂ then true else if p₂ < p₁ then false
  else if strLtB c₁ c₂ then true else if strLtB c₂ c₁ then false
  else if strLtB m₁ m₂ then true else if strLtB m₂ m₁ then false
  else if strLtB t₁ t₂ then true else if strLtB t₂ t₁ then false
  else if h₁ < h₂ then true else if h₂ < h₁ then false
  else strLeB l₁ l₂

/-- `sorted(combined_keys)`: the union of the input key sets, iterated in
a fixed deterministic order. -/
def sortedCombinedKeys (runMaps : List RunMap) : List Key :=
  (firstOccurrences ((runMaps.map (fun m => m.map Prod.fst)).flatten)).insertionSort
    (fun a b => keyLeB a b = true)

/-- One iteration of the `for key in sorted(combined_keys)` loop: write
the merged row into the final map and append a disagreement entry when
the key collected issues. -/
def aggregateStep (runMaps : List RunMap) (tols : ToleranceTable) (d : ℚ)
    (acc : List (Key × Record) × List DisagreementEntry) (key : Key) :
    List (Key × Record) × List DisagreementEntry :=
  match reconcileKey runMaps tols d key with
  | none => acc
  | some (merged, issues) =>
    (ainsert acc.1 key merged,
     if issues ≠ [] then
       acc.2 ++ [{ key := (merged.SourceFile, merged.Page, merged.Section,
                           merged.Measurement, merged.MeasurementType,
                           merged.HourIndex, merged.HourLabel),
                   graph := graphKeyOf merged,
                   issues := issues }]
     else acc.2)

/-- `aggregate_runs` of `aggregation.py`: reconcile each key
of the combined key universe, collect disagreement entries for keys with
issues, then run the Location Harmonizer over the final map. -/
def aggregate_runs (runMaps : List RunMap) (tols : ToleranceTable) (d : ℚ) :
    List (Key × Record) × List DisagreementEntry :=
  if runMaps.isEmpty then ([], [])
  else
    let folded := (sortedCombinedKeys runMaps).foldl (aggregateStep runMaps tols d) ([], [])
    (harmonize_locations folded.1, folded.2)

example : pyMedian [12, 13, 40] = 13 := by decide
example : pyMedian [10, 11, 9, 95] = 21/2 := by
  norm_num [pyMedian, List.insertionSort, List.orderedInsert]
example : mostCommon [("a").data, ("b").data, ("b").data] = some (("b").data) := by decide


/-! ### Validity Filter and repair slice (`run_batch_pipeline.py`,
`parse_batch_results.py`, `extractors.py`)

An hourly entry of a raw per-series payload.  Python hour dicts carry the
fields of their chart kind; `h.get(...)` on an absent field gives `None`,
modelled by `Option`/default values. -/

structure HourEntry where
  hour_label : Str
  hour_index : Nat
  wind_speed_mph : Option ℚ := none
  wind_gust_mph : Option ℚ := none
  wind_direction : Str := []
  rain_mm : Option ℚ := none
  snow_cm : Option ℚ := none
  precip_type : Str := []
  air_temp_c : Option ℚ := none
  freezing_level_m : Option ℚ := none
  wet_bulb_freezing_level_m : Option ℚ := none
  deriving DecidableEq, Repr

/-- One run's raw per-series payload for one chart kind. -/
structure SeriesPayload where
  location : Str := []
  hours : List HourEntry := []
  deriving DecidableEq, Repr

/-- `_series_all_zero` of `run_batch_pipeline.py`: empty hours count as
all-zero; otherwise every entry's defining numeric fields for the kind
must be zero (`h.get(f) or 0` treats an absent field as zero). -/
def _series_all_zero (kind : Str) (p : SeriesPayload) : Bool :=
  if p.hours.isEmpty then true
  else if kind = ("wind").data then
    p.hours.all (fun h => h.wind_speed_mph.getD 0 == 0 && h.wind_gust_mph.getD 0 == 0)
  else if kind = ("precipitation").data then
    p.hours.all (fun h => h.rain_mm.getD 0 == 0 && h.snow_cm.getD 0 == 0)
  else if kind = ("temperature").data then
    p.hours.all (fun h =>
      h.air_temp_c.getD 0 == 0 && h.freezing_level_m.getD 0 == 0 &&
      h.wet_bulb_freezing_level_m.getD 0 == 0)
  else false

/-- `_normalize_series` of `run_batch_pipeline.py`: normalize the
location; for precipitation, normalize each hour's `precip_type`. -/
def _normalize_series (kind : Str) (p : SeriesPayload) : SeriesPayload :=
  { p with
    location := normalize_location_string (some p.location)
    hours :=
      if kind = ("precipitation").data then
        p.hours.map (fun h => { h with precip_type := normalize_precip_type (some h.precip_type) })
      else p.hours }

/-- `_validate_series` of `run_batch_pipeline.py`: `(ok, normalized
payload, rejection reason)`. -/
def _validate_series (kind : Str) (p : SeriesPayload) : Bool × SeriesPayload × Str :=
  let normalized := _normalize_series kind p
  if normalized.hours.isEmpty then (false, normalized, ("empty_hours").data)
  else if _series_all_zero kind normalized then (false, normalized, ("all_zero_series").data)
  else (true, normalized, [])

/-- `series_to_rows` of `extractors.py`: expand one payload into the flat
per-hour, per-measurement rows (three rows per hour for each kind). -/
def series_to_rows (source_file : Str) (page_index : Nat) (location : Str)
    (kind : Str) (hours : List HourEntry) : List Record :=
  if kind = ("wind").data then
    hours.flatMap (fun h =>
      [{ SourceFile := source_file, Page := page_index + 1, Location := location,
         Section := ("Wind").data, Measurement := ("Wind").data,
         MeasurementType := ("Speed").data, Units := ("mph").data,
         HourLabel := h.hour_label, HourIndex := h.hour_index,
         ValueNumeric := h.wind_speed_mph, ValueText := [], Notes := [] },
       { SourceFile := source_file, Page := page_index + 1, Location := location,
         Section := ("Wind").data, Measurement := ("Wind").data,
         MeasurementType := ("Gust").data, Units := ("mph").data,
         HourLabel := h.hour_label, HourIndex := h.hour_index,
         ValueNumeric := h.wind_gust_mph, ValueText := [], Notes := [] },
       { SourceFile := source_file, Page := page_index + 1, Location := location,
         Section := ("Wind").data, Measurement := ("Wind").data,
         MeasurementType := ("Direction").data, Units := [],
         HourLabel := h.hour_label, HourIndex := h.hour_index,
         ValueNumeric := none, ValueText := h.wind_direction, Notes := [] }])
  else if kind = ("precipitation").data then
    hours.flatMap (fun h =>
      [{ SourceFile := source_file, Page := page_index + 1, Location := location,
         Section := ("Precip").data, Measurement := ("Precipitation").data,
         MeasurementType := ("Rain").data, Units := ("mm").data,
         HourLabel := h.hour_label, HourIndex := h.hour_index,
         ValueNumeric := h.rain_mm, ValueText := [], Notes := [] },
       { SourceFile := source_file, Page := page_index + 1, Location := location,
         Section := ("Precip").data, Measurement := ("Precipitation").data,
         MeasurementType := ("Snow").data, Units := ("cm").data,
         HourLabel := h.hour_label, HourIndex := h.hour_index,
         ValueNumeric := h.snow_cm, ValueText := [], Notes := [] },
       { SourceFile := source_file, Page := page_index + 1, Location := location,
         Section := ("Precip").data, Measurement := ("Precipitation").data,
         MeasurementType := ("Type").data, Units := [],
         HourLabel := h.hour_label, HourIndex := h.hour_index,
         ValueNumeric := none, ValueText := h.precip_type, Notes := [] }])
  else if kind = ("temperature").data then
    hours.flatMap (fun h =>
      [{ SourceFile := source_file, Page := page_index + 1, Location := location,
         Section := ("Temperature").data, Measurement := ("Temperature").data,
         MeasurementType := ("AirTemp_C").data, Units := ("degC").data,
         HourLabel := h.hour_label, HourIndex := h.hour_index,
         ValueNumeric := h.air_temp_c, ValueText := [], Notes := [] },
       { SourceFile := source_file, Page := page_index + 1, Location := location,
         Section := ("Temperature").data, Measurement := ("FreezingLevel").data,
         MeasurementType := ("FreezingLevel_m").data, Units := ("m").data,
         HourLabel := h.hour_label, HourIndex := h.hour_index,
         ValueNumeric := h.freezing_level_m, ValueText := [], Notes := [] },
       { SourceFile := source_file, Page := page_index + 1, Location := location,
         Section := ("Temperature").data, Measurement := ("WetBulbFreezingLevel").data,
         MeasurementType := ("WBFL_m").data, Units := ("m").data,
         HourLabel := h.hour_label, HourIndex := h.hour_index,
         ValueNumeric := h.wet_bulb_freezing_level_m, ValueText := [], Notes := [] }])
  else []

/-- The structured output parsed from one batch-result line, after the
JSON plumbing (`extract_structured_output` / `parse_custom_id`), which
both readers of the results file share verbatim.  `hours`/`location` are
the per-graph payload fields; `wind`/`precipitation`/`temperature` are
the sub-payloads of a `combined` output when present. -/
structure ParsedOutput where
  location : Str := []
  hours : List HourEntry := []
  wind : Option SeriesPayload := none
  precipitation : Option SeriesPayload := none
  temperature : Option SeriesPayload := none
  deriving DecidableEq, Repr

/-- One non-error line of a batch results file with a parseable body:
the `custom_id` metadata and the structured output.  (Lines with an
`error`, an unparseable body, or a malformed `custom_id` are skipped in
the same way by both readers and are omitted from the model.) -/
structure ResultEntry where
  file : Str
  page : Nat
  kind : Str
  parsed : ParsedOutput
  deriving DecidableEq, Repr

def EXTRACT_KINDS : List Str :=
  [("wind").data, ("precipitation").data, ("temperature").data]

/-- The `sub_payload`-shaped view of a per-graph entry's parsed output. -/
def perKindPayload (po : ParsedOutput) : SeriesPayload :=
  { location := po.location, hours := po.hours }

/-- `parse_jsonl_file` of `parse_batch_results.py` (row extraction): for
each entry, resolve the location (parsed location, else the detection
fallback for the page), then expand with `series_to_rows`.  A `combined`
entry with all three sub-payload keys expands each sub-kind with its own
location fallback chain; any other unknown kind is skipped.  No validity
filtering happens here. -/
def parse_results_rows (entries : List ResultEntry)
    (detection_locations : List ((Str × Nat) × Str)) : List Record :=
  entries.flatMap (fun e =>
    let page_index := e.page - 1
    let detectLoc := (alookup detection_locations (e.file, page_index + 1)).getD []
    let location := pyOr e.parsed.location detectLoc
    if e.kind = ("combined").data ∧ e.parsed.wind.isSome ∧
        e.parsed.precipitation.isSome ∧ e.parsed.temperature.isSome then
      EXTRACT_KINDS.flatMap (fun sub_kind =>
        let sub : SeriesPayload :=
          (if sub_kind = ("wind").data then e.parsed.wind
           else if sub_kind = ("precipitation").data then e.parsed.precipitation
           else e.parsed.temperature).getD {}
        let loc := pyOr location (pyOr sub.location (pyOr detectLoc sub.location))
        series_to_rows e.file page_index loc sub_kind sub.hours)
    else if e.kind ∈ EXTRACT_KINDS then
      series_to_rows e.file page_index location e.kind e.parsed.hours
    else [])

/-- `dataframe_to_row_map` of `run_batch_pipeline.py`: key each row by its
`DataPointKey`, normalizing `Location` and `ValueText` (the NaN guards
are identities here since blank cells are already `""`/`none`). -/
def dataframe_to_row_map (rows : List Record) : List (Key × Record) :=
  rows.foldl (fun m row =>
    let row' := { row with
                  Location := normalize_location_string (some row.Location) }
    let key : Key := (row'.SourceFile, row'.Page, row'.Section, row'.Measurement,
                      row'.MeasurementType, row'.HourIndex, row'.HourLabel)
    let row'' := { row' with
                   ValueText := normalize_text_value row'.Section row'.MeasurementType
                     (some row'.ValueText) }
    ainsert m key row'') []

/-- One record of the `invalid_entries` list of `load_structured_results`. -/
structure InvalidEntry where
  file : Str
  page : Nat
  kind : Str
  reason : Str
  deriving DecidableEq, Repr

/-- The `invalid_entries` output of `load_structured_results` of
`run_batch_pipeline.py`: every per-series payload (including the
sub-payloads of `combined` outputs) that fails `_validate_series`, with
its rejection reason.  (The companion `results` map feeds only re-run
prompt construction and is not modelled.) -/
def load_structured_invalid (entries : List ResultEntry) : List InvalidEntry :=
  entries.flatMap (fun e =>
    if e.file = [] ∨ e.page = 0 then []
    else if e.kind = ("combined").data then
      EXTRACT_KINDS.flatMap (fun sub_kind =>
        let sub :=
          if sub_kind = ("wind").data then e.parsed.wind
          else if sub_kind = ("precipitation").data then e.parsed.precipitation
          else e.parsed.temperature
        match sub with
        | none => []
        | some p =>
          let v := _validate_series sub_kind p
          if v.1 then [] else [{ file := e.file, page := e.page, kind := sub_kind, reason := v.2.2 }])
    else if e.kind ∈ EXTRACT_KINDS then
      let v := _validate_series e.kind (perKindPayload e.parsed)
      if v.1 then [] else [{ file := e.file, page := e.page, kind := e.kind, reason := v.2.2 }]
    else [])

/-- The per-run invalid summary of `run_pipeline` (lines 633–645 and
720–728): the count of invalid series and a by-reason `Counter`. -/
structure InvalidSummary where
  total_invalid : Nat
  reasons : List (Str × Nat)
  deriving DecidableEq, Repr

def mkInvalidSummary (invalid : List InvalidEntry) : InvalidSummary :=
  { total_invalid := invalid.length
    reasons := pyCounter (invalid.map InvalidEntry.reason) }

/-- The repair patch step of `run_pipeline` (lines 716–735): validate the
re-read results (recording failures), convert the same results to rows
with `parse_jsonl_file`, key them with `dataframe_to_row_map`, overwrite
the final map entry-by-entry, and re-run the Location Harmonizer.
Returns the patched final map and the recorded invalid entries. -/
def applyRerun (final_rows : List (Key × Record)) (entries : List ResultEntry)
    (detection_locations : List ((Str × Nat) × Str)) :
    List (Key × Record) × List InvalidEntry :=
  let rerun_invalid := load_structured_invalid entries
  let rerun_rows := parse_results_rows entries detection_locations
  let rerun_map := dataframe_to_row_map rerun_rows
  let patched := rerun_map.foldl (fun m kr => ainsert m kr.1 kr.2) final_rows
  (harmonize_locations patched, rerun_invalid)

/-- Python's `x or y` on optional lookups: the first hit wins. -/
def optOr {β : Type} (a b : Option β) : Option β :=
  match a with
  | some v => some v
  | none => b

/-! ### Concrete scenario inputs used by the witnesses -/

/-- The wind-speed scenario of spec §8: one `DataPointKey` at hour 5. -/
def windSpeedKey : Key :=
  ((("f").data, 1, ("Wind").data, ("Wind").data, ("Speed").data, 5, ("23:00").data))

/-- One run's wind-speed record reading `q` mph for `windSpeedKey`. -/
def windSpeedRecord (q : ℚ) : Record :=
  { SourceFile := ("f").data, Page := 1, Location := [],
    Section := ("Wind").data, Measurement := ("Wind").data,
    MeasurementType := ("Speed").data, Units := ("mph").data,
    HourLabel := ("23:00").data, HourIndex := 5,
    ValueNumeric := some q, ValueText := [], Notes := [] }

/-- Three runs reading wind speeds 12, 13 and 40 mph. -/
def windSpeedRuns : List RunMap :=
  [[(windSpeedKey, windSpeedRecord 12)],
   [(windSpeedKey, windSpeedRecord 13)],
   [(windSpeedKey, windSpeedRecord 40)]]

/-- An all-zero one-hour wind payload: rejected by the validity filter
with reason `"all_zero_series"`. -/
def c8SamplePayload : SeriesPayload :=
  { location := [],
    hours := [{ hour_label := ("18:00").data, hour_index := 0,
                wind_speed_mph := some 0 }] }

/-- The rerun result entry of the repair-gating counterexample: a wind
payload whose only hour reads zero for both speed and gust, which fails
the validity filter. -/
def c2RerunEntry : ResultEntry :=
  { file := ("f").data, page := 1, kind := ("wind").data,
    parsed := { location := [],
                hours := [{ hour_label := ("00:00").data, hour_index := 0,
                            wind_speed_mph := some 0 }] } }

/-- The wind-speed key touched by the repair-gating counterexample. -/
def c2SpeedKey : Key :=
  ((("f").data, 1, ("Wind").data, ("Wind").data, ("Speed").data, 0, ("00:00").data))

/-- The pre-repair FinalRow map of the counterexample: the wind-speed key
holds the original consensus reading of 13 mph. -/
def c2FinalBefore : List (Key × Record) :=
  [(c2SpeedKey,
    { SourceFile := ("f").data, Page := 1, Location := [],
      Section := ("Wind").data, Measurement := ("Wind").data,
      MeasurementType := ("Speed").data, Units := ("mph").data,
      HourLabel := ("00:00").data, HourIndex := 0,
      ValueNumeric := some 13, ValueText := [], Notes := [] })]

/-! ### Library lemmas: association lists -/

theorem alookup_eq_none_iff {κ β : Type} [DecidableEq κ] (m : List (κ × β)) (k : κ) :
    alookup m k = none ↔ k ∉ m.map Prod.fst := by
  induction m with
  | nil => simp [alookup]
  | cons p t ih =>
    obtain ⟨a, b⟩ := p
    by_cases h : a = k <;> simp [alookup, h, ih, Ne.symm]

theorem alookup_isSome_iff {κ β : Type} [DecidableEq κ] (m : List (κ × β)) (k : κ) :
    (alookup m k).isSome ↔ k ∈ m.map Prod.fst := by
  rw [Option.isSome_iff_ne_none, Ne, alookup_eq_none_iff, not_not]

theorem alookup_ainsert {κ β : Type} [DecidableEq κ] (m : List (κ × β)) (k k' : κ) (v : β) :
    alookup (ainsert m k v) k' = if k = k' then some v else alookup m k' := by
  induction m with
  | nil => simp [ainsert, alookup]
  | cons p t ih =>
    obtain ⟨a, b⟩ := p
    by_cases h : a = k
    · subst h
      by_cases h2 : a = k' <;> simp [ainsert, alookup, h2]
    · by_cases h2 : a = k'
      · subst h2
        have hkk : ¬ k = a := fun hh => h hh.symm
        simp [ainsert, alookup, h, hkk]
      · simp [ainsert, alookup, h, h2, ih]

theorem mem_keys_ainsert {κ β : Type} [DecidableEq κ] (m : List (κ × β)) (k x : κ) (v : β) :
    x ∈ (ainsert m k v).map Prod.fst ↔ x ∈ m.map Prod.fst ∨ x = k := by
  induction m with
  | nil => simp [ainsert]
  | cons p t ih =>
    obtain ⟨a, b⟩ := p
    by_cases h : a = k
    · subst h; simp [ainsert]; tauto
    · simp [ainsert, h, ih]; tauto

theorem keys_nodup_ainsert {κ β : Type} [DecidableEq κ] (m : List (κ × β)) (k : κ) (v : β)
    (h : (m.map Prod.fst).Nodup) : ((ainsert m k v).map Prod.fst).Nodup := by
  induction m with
  | nil => simp [ainsert]
  | cons p t ih =>
    obtain ⟨a, b⟩ := p
    simp only [List.map_cons, List.nodup_cons] at h
    by_cases hk : a = k
    · subst hk; simpa [ainsert, List.nodup_cons] using h
    · simp only [ainsert, if_neg hk, List.map_cons, List.nodup_cons]
      refine ⟨fun hmem => ?_, ih h.2⟩
      rcases (mem_keys_ainsert t k a v).mp hmem with h1 | h1
      · exact h.1 h1
      · exact hk h1


theorem alookup_foldl_ainsert {κ β : Type} [DecidableEq κ] (l : List (κ × β)) :
    ∀ (m : List (κ × β)) (k : κ), (l.map Prod.fst).Nodup →
      alookup (l.foldl (fun acc p => ainsert acc p.1 p.2) m) k =
        optOr (alookup l k) (alookup m k) := by
  induction l with
  | nil => intro m k _; simp [alookup, optOr]
  | cons p t ih =>
    intro m k hnd
    obtain ⟨a, b⟩ := p
    simp only [List.map_cons, List.nodup_cons] at hnd
    simp only [List.foldl_cons]
    rw [ih (ainsert m a b) k hnd.2, alookup_ainsert]
    by_cases h : a = k
    · subst h
      have ht : alookup t a = none := (alookup_eq_none_iff t a).mpr hnd.1
      simp [alookup, ht, optOr]
    · simp [alookup, h, optOr]

theorem alookup_map_value {κ β : Type} [DecidableEq κ] (m : List (κ × β)) (f : κ → β → β)
    (k : κ) : alookup (m.map (fun p => (p.1, f p.1 p.2))) k = (alookup m k).map (f k) := by
  induction m with
  | nil => simp [alookup]
  | cons p t ih =>
    obtain ⟨a, b⟩ := p
    by_cases h : a = k
    · subst h; simp [alookup]
    · simp [alookup, h, ih]

/-! ### Library lemmas: `mostCommon` -/

theorem foldl_vote_count {α : Type} [DecidableEq α] (l : List α) (t : List α) :
    ∀ b : α,
      l.count b ≤ l.count (t.foldl (fun best x => if l.count best < l.count x then x else best) b) ∧
      ∀ x ∈ t, l.count x ≤ l.count (t.foldl (fun best x => if l.count best < l.count x then x else best) b) := by
  induction t with
  | nil => intro b; simp
  | cons x t ih =>
    intro b
    simp only [List.foldl_cons]
    by_cases h : l.count b < l.count x
    · have := ih x
      simp only [if_pos h]
      exact ⟨le_trans (le_of_lt h) this.1,
        fun y hy => by
          rcases List.mem_cons.mp hy with rfl | hy
          · exact this.1
          · exact this.2 y hy⟩
    · have := ih b
      simp only [if_neg h]
      exact ⟨this.1,
        fun y hy => by
          rcases List.mem_cons.mp hy with rfl | hy
          · exact le_trans (le_of_not_lt h) this.1
          · exact this.2 y hy⟩

theorem foldl_vote_first {α : Type} [DecidableEq α] (l : List α) (t : List α) :
    ∀ b : α,
      t.foldl (fun best x => if l.count best < l.count x then x else best) b = b ∨
      ∃ t₁ t₂, t = t₁ ++ (t.foldl (fun best x => if l.count best < l.count x then x else best) b) :: t₂ ∧
        l.count b < l.count (t.foldl (fun best x => if l.count best < l.count x then x else best) b) ∧
        ∀ x ∈ t₁, l.count x < l.count (t.foldl (fun best x => if l.count best < l.count x then x else best) b) := by
  induction t with
  | nil => intro b; left; rfl
  | cons x t ih =>
    intro b
    simp only [List.foldl_cons]
    by_cases h : l.count b < l.count x
    · simp only [if_pos h]
      rcases ih x with heq | ⟨t₁, t₂, hsplit, hlt, hall⟩
      · right
        exact ⟨[], t, by simp [heq], by rw [heq]; exact h, by simp⟩
      · right
        refine ⟨x :: t₁, t₂, by rw [List.cons_append, ← hsplit], lt_trans h hlt, ?_⟩
        intro y hy
        rcases List.mem_cons.mp hy with rfl | hy
        · exact hlt
        · exact hall y hy
    · simp only [if_neg h]
      rcases ih b with heq | ⟨t₁, t₂, hsplit, hlt, hall⟩
      · left; exact heq
      · right
        refine ⟨x :: t₁, t₂, by rw [List.cons_append, ← hsplit], hlt, ?_⟩
        intro y hy
        rcases List.mem_cons.mp hy with rfl | hy
        · exact lt_of_le_of_lt (le_of_not_lt h) hlt
        · exact hall y hy

/-- Specification of `Counter.most_common(1)[0][0]`: the returned value
occurs in the list, has maximal occurrence count, and every element that
first occurs strictly before it has a strictly smaller count (ties are
broken by encounter order). -/
theorem mostCommon_spec {α : Type} [DecidableEq α] (l : List α) (a : α)
    (h : mostCommon l = some a) :
    a ∈ l ∧ (∀ b ∈ l, l.count b ≤ l.count a) ∧
      ∃ t₁ t₂, l = t₁ ++ a :: t₂ ∧ ∀ b ∈ t₁, l.count b < l.count a := by
  rcases l with _ | ⟨c, t⟩
  · cases h
  · simp only [mostCommon, Option.some.injEq] at h
    subst h
    have hcnt := foldl_vote_count (c :: t) (c :: t) c
    have hfst := foldl_vote_first (c :: t) (c :: t) c
    refine ⟨?_, fun b hb => hcnt.2 b hb, ?_⟩
    · rcases hfst with heq | ⟨t₁, t₂, hsplit, _, _⟩
      · rw [heq]; exact List.mem_cons_self c t
      · have hmem : (c :: t).foldl
            (fun best x => if (c :: t).count best < (c :: t).count x then x else best) c
            ∈ t₁ ++ ((c :: t).foldl
              (fun best x => if (c :: t).count best < (c :: t).count x then x else best) c) :: t₂ := by
          simp
        rwa [← hsplit] at hmem
    · rcases hfst with heq | ⟨t₁, t₂, hsplit, _, hall⟩
      · exact ⟨[], t, by simp [heq], by simp⟩
      · exact ⟨t₁, t₂, hsplit, hall⟩

theorem mostCommon_eq_none_iff {α : Type} [DecidableEq α] (l : List α) :
    mostCommon l = none ↔ l = [] := by
  cases l <;> simp [mostCommon]

theorem foldl_vote_all_eq {α : Type} [DecidableEq α] (l : List α) (t : List α) (b : α)
    (h : ∀ x ∈ t, x = b) :
    t.foldl (fun best x => if l.count best < l.count x then x else best) b = b := by
  induction t with
  | nil => rfl
  | cons x t ih =>
    have hx : x = b := h x (List.mem_cons_self _ _)
    subst hx
    simp only [List.foldl_cons, lt_irrefl, if_neg (lt_irrefl _)]
    exact ih (fun y hy => h y (List.mem_cons_of_mem _ hy))

theorem mostCommon_all_eq {α : Type} [DecidableEq α] (l : List α) (a : α)
    (hne : l ≠ []) (h : ∀ x ∈ l, x = a) : mostCommon l = some a := by
  rcases l with _ | ⟨c, t⟩
  · exact absurd rfl hne
  · have hc : c = a := h c (List.mem_cons_self _ _)
    simp only [mostCommon, Option.some.injEq]
    rw [foldl_vote_all_eq _ _ _ (fun x hx => (h x hx).trans hc.symm)]
    exact hc

/-! ### Library lemmas: `firstOccurrences` -/

theorem mem_firstOccurrencesAux {α : Type} [DecidableEq α] (l : List α) :
    ∀ (seen : List α) (x : α), x ∈ firstOccurrencesAux l seen ↔ x ∈ l ∧ x ∉ seen := by
  induction l with
  | nil => intro seen x; simp [firstOccurrencesAux]
  | cons a t ih =>
    intro seen x
    by_cases ha : a ∈ seen
    · rw [firstOccurrencesAux, if_pos ha, ih seen x]
      constructor
      · exact fun ⟨h1, h2⟩ => ⟨List.mem_cons_of_mem _ h1, h2⟩
      · rintro ⟨h1, h2⟩
        rcases List.mem_cons.mp h1 with rfl | h1
        · exact absurd ha h2
        · exact ⟨h1, h2⟩
    · rw [firstOccurrencesAux, if_neg ha]
      by_cases hx : x = a
      · subst hx
        simp [ha]
      · simp only [List.mem_cons, hx, false_or]
        rw [ih (a :: seen) x]
        simp [hx]

theorem mem_firstOccurrences {α : Type} [DecidableEq α] (l : List α) (x : α) :
    x ∈ firstOccurrences l ↔ x ∈ l := by
  rw [firstOccurrences, mem_firstOccurrencesAux]
  simp

theorem nodup_firstOccurrencesAux {α : Type} [DecidableEq α] (l : List α) :
    ∀ seen : List α, (firstOccurrencesAux l seen).Nodup := by
  induction l with
  | nil => intro seen; simp [firstOccurrencesAux]
  | cons a t ih =>
    intro seen
    by_cases ha : a ∈ seen
    · rw [firstOccurrencesAux, if_pos ha]
      exact ih seen
    · rw [firstOccurrencesAux, if_neg ha]
      refine List.Nodup.cons ?_ (ih (a :: seen))
      intro hmem
      exact ((mem_firstOccurrencesAux t (a :: seen) a).mp hmem).2 (List.mem_cons_self _ _)

theorem nodup_firstOccurrences {α : Type} [DecidableEq α] (l : List α) :
    (firstOccurrences l).Nodup := nodup_firstOccurrencesAux l []

theorem one_lt_firstOccurrences_length_iff {α : Type} [DecidableEq α] (l : List α) :
    1 < (firstOccurrences l).length ↔ ∃ x ∈ l, ∃ y ∈ l, x ≠ y := by
  constructor
  · intro h
    rcases hf : firstOccurrences l with _ | ⟨a, _ | ⟨b, t⟩⟩
    · rw [hf] at h; simp at h
    · rw [hf] at h; simp at h
    · have hnd := nodup_firstOccurrences l
      rw [hf] at hnd
      have hab : a ≠ b := by
        intro hab
        subst hab
        simp [List.nodup_cons] at hnd
      have ha : a ∈ l := (mem_firstOccurrences l a).mp (by rw [hf]; simp)
      have hb : b ∈ l := (mem_firstOccurrences l b).mp (by rw [hf]; simp)
      exact ⟨a, ha, b, hb, hab⟩
  · rintro ⟨x, hx, y, hy, hxy⟩
    have hx' : x ∈ firstOccurrences l := (mem_firstOccurrences l x).mpr hx
    have hy' : y ∈ firstOccurrences l := (mem_firstOccurrences l y).mpr hy
    rcases hf : firstOccurrences l with _ | ⟨a, _ | ⟨b, t⟩⟩
    · rw [hf] at hx'; simp at hx'
    · rw [hf] at hx' hy'
      simp at hx' hy'
      exact absurd (hx'.trans hy'.symm) hxy
    · simp

/-! ### Library lemmas: `pyStrip` and the Normalizer -/

theorem dropWhile_head_not {α : Type} (p : α → Bool) (l : List α) (x : α) (xs : List α)
    (h : l.dropWhile p = x :: xs) : p x = false := by
  induction l with
  | nil => cases h
  | cons a t ih =>
    by_cases hp : p a
    · rw [List.dropWhile_cons_of_pos hp] at h
      exact ih h
    · rw [List.dropWhile_cons_of_neg hp] at h
      cases h
      simpa using hp

theorem dropWhile_suffix_exists {α : Type} (p : α → Bool) (l : List α) :
    ∃ pre, l = pre ++ l.dropWhile p := by
  induction l with
  | nil => exact ⟨[], rfl⟩
  | cons a t ih =>
    by_cases hp : p a
    · rcases ih with ⟨pre, hpre⟩
      exact ⟨a :: pre, by rw [List.dropWhile_cons_of_pos hp, List.cons_append, ← hpre]⟩
    · exact ⟨[], by simp [List.dropWhile_cons_of_neg hp]⟩

theorem pyStrip_head_not (s : Str) (x : Char) (xs : Str)
    (h : pyStrip s = x :: xs) : x.isWhitespace = false := by
  have hrev : (pyStrip s).reverse = (s.dropWhile Char.isWhitespace).reverse.dropWhile Char.isWhitespace := by
    simp [pyStrip]
  rcases dropWhile_suffix_exists Char.isWhitespace (s.dropWhile Char.isWhitespace).reverse with ⟨pre, hpre⟩
  have hs : s.dropWhile Char.isWhitespace = pyStrip s ++ pre.reverse := by
    have := congrArg List.reverse hpre
    simpa [← hrev] using this
  rcases hu : s.dropWhile Char.isWhitespace with _ | ⟨u, us⟩
  · rw [hu, h] at hs
    cases hs
  · have hx : u = x := by
      rw [hu, h, List.cons_append] at hs
      injection hs
    subst hx
    exact dropWhile_head_not _ _ _ _ hu

theorem pyStrip_revhead_not (s : Str) (y : Char) (ys : Str)
    (h : (pyStrip s).reverse = y :: ys) : y.isWhitespace = false := by
  have hrev : (pyStrip s).reverse = (s.dropWhile Char.isWhitespace).reverse.dropWhile Char.isWhitespace := by
    simp [pyStrip]
  rw [hrev] at h
  exact dropWhile_head_not _ _ _ _ h

theorem pyStrip_of_ends (s : Str)
    (h₁ : ∀ x xs, s = x :: xs → x.isWhitespace = false)
    (h₂ : ∀ y ys, s.reverse = y :: ys → y.isWhitespace = false) :
    pyStrip s = s := by
  have hd : s.dropWhile Char.isWhitespace = s := by
    rcases hs : s with _ | ⟨x, xs⟩
    · rfl
    · rw [List.dropWhile_cons_of_neg]
      simp [h₁ x xs hs]
  have hr : s.reverse.dropWhile Char.isWhitespace = s.reverse := by
    rcases hs : s.reverse with _ | ⟨y, ys⟩
    · simp [hs]
    · rw [List.dropWhile_cons_of_neg (by simp [h₂ y ys hs])]
  rw [pyStrip, hd, hr, List.reverse_reverse]

theorem pyStrip_idem (s : Str) : pyStrip (pyStrip s) = pyStrip s := by
  apply pyStrip_of_ends
  · intro x xs h
    exact pyStrip_head_not s x xs h
  · intro y ys h
    exact pyStrip_revhead_not s y ys h

theorem revMetresSplit_shape (r digs tail : Str)
    (h : revMetresSplit r = some (digs, tail)) :
    ∃ wsp, r.reverse = tail.reverse ++ '(' :: (digs ++ wsp ++ ['m', ')']) := by
  match r with
  | [] => cases h
  | [c0] => cases h
  | c0 :: c1 :: r2 =>
    simp only [revMetresSplit] at h
    by_cases hc : c0 = ')' ∧ c1 = 'm'
    · rw [if_pos hc] at h
      obtain ⟨hc0, hc1⟩ := hc
      subst hc0; subst hc1
      by_cases hd : (r2.dropWhile Char.isWhitespace).takeWhile Char.isDigit = []
      · rw [if_pos hd] at h; cases h
      · rw [if_neg hd] at h
        rcases hr4 : (r2.dropWhile Char.isWhitespace).dropWhile Char.isDigit with _ | ⟨c2, tl⟩
        · rw [hr4] at h; cases h
        · rw [hr4] at h
          dsimp only at h
          by_cases hc2 : c2 = '('
          · subst hc2
            rw [if_pos rfl] at h
            cases h
            refine ⟨(r2.takeWhile Char.isWhitespace).reverse, ?_⟩
            have h2 : r2 = r2.takeWhile Char.isWhitespace ++
                ((r2.dropWhile Char.isWhitespace).takeWhile Char.isDigit ++ ('(' :: tail)) := by
              rw [← hr4, List.takeWhile_append_dropWhile, List.takeWhile_append_dropWhile]
            conv_lhs => rw [h2]
            simp [List.reverse_append]
          · rw [if_neg hc2] at h; cases h
    · rw [if_neg hc] at h; cases h

/-- The output of `normalize_location_string` carries no leading or
trailing whitespace. -/
theorem normalize_location_stripped (v : Option Str) :
    pyStrip (normalize_location_string v) = normalize_location_string v := by
  match v with
  | none => rfl
  | some s =>
    simp only [normalize_location_string]
    by_cases hp : pyLower (pyStrip s) ∈ LOCATION_PLACEHOLDER_VALUES
    · rw [if_pos hp]; rfl
    · rw [if_neg hp]
      rcases hm : revMetresSplit (pyStrip (stripDescriptorOnce (pyStrip s))).reverse
        with _ | ⟨digs, tailRev⟩
      · exact pyStrip_idem _
      · dsimp only
        rcases revMetresSplit_shape _ _ _ hm with ⟨wsp, hshape⟩
        rw [List.reverse_reverse] at hshape
        apply pyStrip_of_ends
        · intro x xs hx
          rcases ht : tailRev.reverse with _ | ⟨y, ys⟩
          · rw [ht] at hx
            simp only [List.nil_append] at hx
            cases hx
            decide
          · have hs2 : pyStrip (stripDescriptorOnce (pyStrip s)) = y :: (ys ++ '(' :: (digs ++ wsp ++ ['m', ')'])) := by
              rw [hshape, ht, List.cons_append]
            have hyw := pyStrip_head_not _ _ _ hs2
            rw [ht, List.cons_append] at hx
            injection hx with h1 _
            rw [← h1]
            exact hyw
        · intro y ys hy
          have hrev : (tailRev.reverse ++ '(' :: (digs ++ (" metres)").data)).reverse =
              ')' :: ('s' :: 'e' :: 'r' :: 't' :: 'e' :: 'm' :: ' ' :: (digs.reverse ++ '(' :: tailRev)) := by
            simp [List.reverse_append]
          rw [hrev] at hy
          injection hy with h1 _
          rw [← h1]
          decide

/-- The output of `normalize_location_string` never matches the
`(<digits>m)` suffix pattern again. -/
theorem normalize_location_nomatch (v : Option Str) :
    revMetresSplit (normalize_location_string v).reverse = none := by
  match v with
  | none => rfl
  | some s =>
    simp only [normalize_location_string]
    by_cases hp : pyLower (pyStrip s) ∈ LOCATION_PLACEHOLDER_VALUES
    · rw [if_pos hp]; rfl
    · rw [if_neg hp]
      rcases hm : revMetresSplit (pyStrip (stripDescriptorOnce (pyStrip s))).reverse
        with _ | ⟨digs, tailRev⟩
      · exact hm
      · dsimp only
        have hrev : (tailRev.reverse ++ '(' :: (digs ++ (" metres)").data)).reverse =
            ')' :: ('s' :: 'e' :: 'r' :: 't' :: 'e' :: 'm' :: ' ' :: (digs.reverse ++ '(' :: tailRev)) := by
          simp [List.reverse_append]
        rw [hrev, revMetresSplit]
        rw [if_neg (by decide)]

/-! ### Claim C5 — idempotence of `normalize_location_string` -/

/-- C5 counterexample: `normalize_location_string` is not idempotent.
`"Wind - none"` normalizes to `"none"` (the placeholder check happens
before the descriptor strip), and renormalizing `"none"` yields `""`. -/
theorem c5_counterexample :
    normalize_location_string (some (normalize_location_string (some (("Wind - none").data)))) ≠
      normalize_location_string (some (("Wind - none").data)) := by decide

/-- C5 (amended): normalizing an already-normalized string returns it
unchanged, provided the normalized string does not itself begin with a
known descriptor prefix and is not (case-insensitively) a placeholder
value; without that proviso a second pass can strip a further prefix or
collapse a placeholder alias to the empty string. -/
theorem c5_normalize_idempotent_amended (s : Str)
    (h₁ : ∀ p ∈ LOCATION_DESCRIPTORS, strStarts p (normalize_location_string (some s)) = false)
    (h₂ : pyLower (normalize_location_string (some s)) ∈ LOCATION_PLACEHOLDER_VALUES →
      normalize_location_string (some s) = []) :
    normalize_location_string (some (normalize_location_string (some s))) =
      normalize_location_string (some s) := by
  have hstrip : pyStrip (normalize_location_string (some s)) = normalize_location_string (some s) :=
    normalize_location_stripped (some s)
  have hnomatch := normalize_location_nomatch (some s)
  set n := normalize_location_string (some s) with hn
  by_cases hp : pyLower (pyStrip n) ∈ LOCATION_PLACEHOLDER_VALUES
  · rw [hstrip] at hp
    have hnil := h₂ hp
    rw [hnil]
    decide
  · simp only [normalize_location_string]
    rw [if_neg hp, hstrip]
    have hdesc : stripDescriptorOnce n = n := by
      rw [stripDescriptorOnce, List.find?_eq_none.mpr]
      intro p hpmem
      simp [h₁ p hpmem]
    rw [hdesc, hstrip, hnomatch]

theorem c5_witness :
    (∀ p ∈ LOCATION_DESCRIPTORS,
      strStarts p (normalize_location_string (some (("Wind - Ben Nevis (1345m)").data))) = false) ∧
    normalize_location_string
        (some (normalize_location_string (some (("Wind - Ben Nevis (1345m)").data)))) =
      normalize_location_string (some (("Wind - Ben Nevis (1345m)").data)) :=
  ⟨by decide, c5_normalize_idempotent_amended _ (by decide) (by decide)⟩

/-! ### Claim C4 — idempotence of `harmonize_locations` -/

theorem filterMap_congr_mem {α β : Type} {l : List α} {f g : α → Option β}
    (h : ∀ a ∈ l, f a = g a) : l.filterMap f = l.filterMap g := by
  induction l with
  | nil => rfl
  | cons a t ih =>
    simp only [List.filterMap_cons, h a (List.mem_cons_self _ _)]
    rw [ih (fun x hx => h x (List.mem_cons_of_mem _ hx))]

theorem map_eq_self_of_mem {α : Type} {l : List α} {f : α → α}
    (h : ∀ a ∈ l, f a = a) : l.map f = l := by
  induction l with
  | nil => rfl
  | cons a t ih =>
    rw [List.map_cons, h a (List.mem_cons_self _ _),
      ih (fun x hx => h x (List.mem_cons_of_mem _ hx))]

theorem mem_groupLocs {vals : List Record} {g : GraphKey} {x : Str}
    (h : x ∈ groupLocs vals g) :
    x ≠ [] ∧ ∃ r ∈ vals, graphKeyOf r = g ∧ x = normalize_location_string (some r.Location) := by
  rw [groupLocs, List.mem_filterMap] at h
  obtain ⟨r, hr, hf⟩ := h
  dsimp only at hf
  by_cases hc : graphKeyOf r = g ∧ ¬ normalize_location_string (some r.Location) = []
  · rw [if_pos hc] at hf
    cases hf
    exact ⟨hc.2, r, hr, hc.1, rfl⟩
  · rw [if_neg hc] at hf; cases hf

theorem groupLocs_ne_nil_witness {vals : List Record} {g : GraphKey}
    (h : groupLocs vals g ≠ []) :
    ∃ r ∈ vals, graphKeyOf r = g ∧ normalize_location_string (some r.Location) ≠ [] := by
  obtain ⟨x, hx⟩ := List.exists_mem_of_ne_nil _ h
  obtain ⟨hne, r, hr, hg, hx'⟩ := mem_groupLocs hx
  exact ⟨r, hr, hg, by rw [← hx']; exact hne⟩

/-- C4 counterexample: `harmonize_locations` is not idempotent.  A row
whose location is `"Wind - Wind - B"` harmonizes to `"Wind - B"` on the
first pass and to `"B"` on the second (the per-pass normalization strips
one descriptor prefix each time). -/
theorem c4_counterexample :
    harmonize_locations (harmonize_locations
        [((("f").data, 1, ("Wind").data, ("Wind").data, ("Speed").data, 0, ("18:00").data),
          { SourceFile := ("f").data, Page := 1, Location := ("Wind - Wind - B").data,
            Section := ("Wind").data, Measurement := ("Wind").data,
            MeasurementType := ("Speed").data, Units := ("mph").data,
            HourLabel := ("18:00").data, HourIndex := 0,
            ValueNumeric := none, ValueText := [], Notes := [] })]) ≠
      harmonize_locations
        [((("f").data, 1, ("Wind").data, ("Wind").data, ("Speed").data, 0, ("18:00").data),
          { SourceFile := ("f").data, Page := 1, Location := ("Wind - Wind - B").data,
            Section := ("Wind").data, Measurement := ("Wind").data,
            MeasurementType := ("Speed").data, Units := ("mph").data,
            HourLabel := ("18:00").data, HourIndex := 0,
            ValueNumeric := none, ValueText := [], Notes := [] })] := by decide

/-- C4 (amended): `harmonize_locations` is idempotent on every FinalRow
map in which each row's location normalizes to a fixed point of
`normalize_location_string` (as is the case for every location that does
not stack a second descriptor prefix or placeholder alias under the
first).  Unrestricted idempotence fails: see the counterexample. -/
theorem c4_harmonize_idempotent_amended (m : List (Key × Record))
    (hfix : ∀ kr ∈ m,
      normalize_location_string (some (normalize_location_string (some (kr.2).Location))) =
        normalize_location_string (some (kr.2).Location)) :
    harmonize_locations (harmonize_locations m) = harmonize_locations m := by
  have hfix' : ∀ r ∈ m.map Prod.snd,
      normalize_location_string (some (normalize_location_string (some r.Location))) =
        normalize_location_string (some r.Location) := by
    intro r hr
    obtain ⟨kr, hkr, rfl⟩ := List.mem_map.mp hr
    exact hfix kr hkr
  set vals := m.map Prod.snd with hvals
  -- the location written into the rows of group `g` by the first pass
  set vote := fun g => (mostCommon (groupLocs vals g)).getD [] with hvote
  have hvals1 : (harmonize_locations m).map Prod.snd =
      vals.map (fun r => { r with Location := vote (graphKeyOf r) }) := by
    rw [harmonize_locations]
    rw [List.map_map, hvals, List.map_map]
    rfl
  -- the group candidates after the first pass: every contributing row of
  -- group `g` contributes exactly the voted location of `g`
  have hgl : ∀ g, groupLocs ((harmonize_locations m).map Prod.snd) g =
      vals.filterMap (fun r =>
        match mostCommon (groupLocs vals (graphKeyOf r)) with
        | some L => if graphKeyOf r = g then some L else none
        | none => none) := by
    intro g
    rw [hvals1, groupLocs, List.filterMap_map]
    apply filterMap_congr_mem
    intro r hr
    rcases hmc : mostCommon (groupLocs vals (graphKeyOf r)) with _ | L
    · have hloc : vote (graphKeyOf r) = [] := by
        show (mostCommon (groupLocs vals (graphKeyOf r))).getD [] = []
        rw [hmc]; rfl
      dsimp only [Function.comp]
      rw [hloc]
      rw [if_neg (fun hc => hc.2 (by decide))]
    · have hloc : vote (graphKeyOf r) = L := by
        show (mostCommon (groupLocs vals (graphKeyOf r))).getD [] = L
        rw [hmc]; rfl
      have hLmem : L ∈ groupLocs vals (graphKeyOf r) := (mostCommon_spec _ _ hmc).1
      obtain ⟨hLne, r₂, hr₂, _, hLval⟩ := mem_groupLocs hLmem
      have hLfix : normalize_location_string (some L) = L := by
        rw [hLval]; exact hfix' r₂ hr₂
      dsimp only [Function.comp]
      rw [hloc, hLfix]
      by_cases hgr : graphKeyOf r = g
      · rw [if_pos ⟨hgr, hLne⟩, if_pos hgr]
      · rw [if_neg (fun hc => hgr hc.1), if_neg hgr]
  -- second pass votes agree with first pass votes
  have hvote2 : ∀ g, groupLocs vals g ≠ [] →
      ∀ r' ∈ vals, graphKeyOf r' = g →
      (mostCommon (groupLocs ((harmonize_locations m).map Prod.snd) g)) = mostCommon (groupLocs vals g) := by
    intro g hne r' hr' hgr'
    rcases hmc : mostCommon (groupLocs vals g) with _ | L
    · exact absurd ((mostCommon_eq_none_iff _).mp hmc) hne
    · rw [hgl g]
      apply mostCommon_all_eq
      · obtain ⟨r₀, hr₀, hg₀, hloc₀⟩ := groupLocs_ne_nil_witness hne
        intro hnil
        rw [List.filterMap_eq_nil_iff] at hnil
        have hcontr := hnil r₀ hr₀
        rw [hg₀, hmc] at hcontr
        simp at hcontr
      · intro x hx
        rw [List.mem_filterMap] at hx
        obtain ⟨r₁, hr₁, hf₁⟩ := hx
        rcases hmc₁ : mostCommon (groupLocs vals (graphKeyOf r₁)) with _ | L₁
        · rw [hmc₁] at hf₁; cases hf₁
        · rw [hmc₁] at hf₁
          dsimp only at hf₁
          by_cases hg₁ : graphKeyOf r₁ = g
          · rw [if_pos hg₁] at hf₁
            cases hf₁
            rw [hg₁, hmc] at hmc₁
            injection hmc₁ with h1
            exact h1.symm
          · rw [if_neg hg₁] at hf₁; cases hf₁
  -- rows untouched by a group with no candidates stay untouched
  have hvote2' : ∀ g, groupLocs vals g = [] →
      groupLocs ((harmonize_locations m).map Prod.snd) g = [] := by
    intro g hnil
    rw [hgl g]
    rw [List.filterMap_eq_nil_iff]
    intro r₁ hr₁
    rcases hmc₁ : mostCommon (groupLocs vals (graphKeyOf r₁)) with _ | L₁
    · simp only [hmc₁]
    · by_cases hg₁ : graphKeyOf r₁ = g
      · rw [hg₁] at hmc₁
        rw [hnil] at hmc₁
        simp [mostCommon] at hmc₁
      · simp only [hmc₁]
        rw [if_neg hg₁]
  -- conclude pointwise
  conv_lhs => rw [show harmonize_locations (harmonize_locations m) =
    (harmonize_locations m).map (fun kr =>
      (kr.1, { kr.2 with Location :=
        (mostCommon (groupLocs ((harmonize_locations m).map Prod.snd) (graphKeyOf kr.2))).getD [] })) from rfl]
  apply map_eq_self_of_mem
  intro kr hkr
  rw [harmonize_locations] at hkr
  obtain ⟨kr₀, hkr₀, rfl⟩ := List.mem_map.mp hkr
  dsimp only
  have hgk : graphKeyOf { kr₀.2 with Location := (mostCommon (groupLocs (m.map Prod.snd) (graphKeyOf kr₀.2))).getD [] } = graphKeyOf kr₀.2 := rfl
  rw [hgk]
  have hval : kr₀.2 ∈ vals := by
    rw [hvals]
    exact List.mem_map.mpr ⟨kr₀, hkr₀, rfl⟩
  rcases hnil : groupLocs vals (graphKeyOf kr₀.2) with _ | ⟨c, cs⟩
  · rw [hvote2' _ hnil]
  · have hne : groupLocs vals (graphKeyOf kr₀.2) ≠ [] := by rw [hnil]; simp
    have h2 := hvote2 _ hne kr₀.2 hval rfl
    rw [h2, hnil]

theorem c4_witness :
    (∀ kr ∈ ([((("f").data, 1, ("Wind").data, ("Wind").data, ("Speed").data, 0, ("18:00").data),
        { SourceFile := ("f").data, Page := 1, Location := ("Ben Nevis").data,
          Section := ("Wind").data, Measurement := ("Wind").data,
          MeasurementType := ("Speed").data, Units := ("mph").data,
          HourLabel := ("18:00").data, HourIndex := 0,
          ValueNumeric := none, ValueText := [], Notes := [] })] : List (Key × Record)),
      normalize_location_string (some (normalize_location_string (some (kr.2).Location))) =
        normalize_location_string (some (kr.2).Location)) ∧
    harmonize_locations (harmonize_locations
        [((("f").data, 1, ("Wind").data, ("Wind").data, ("Speed").data, 0, ("18:00").data),
          { SourceFile := ("f").data, Page := 1, Location := ("Ben Nevis").data,
            Section := ("Wind").data, Measurement := ("Wind").data,
            MeasurementType := ("Speed").data, Units := ("mph").data,
            HourLabel := ("18:00").data, HourIndex := 0,
            ValueNumeric := none, ValueText := [], Notes := [] })]) =
      harmonize_locations
        [((("f").data, 1, ("Wind").data, ("Wind").data, ("Speed").data, 0, ("18:00").data),
          { SourceFile := ("f").data, Page := 1, Location := ("Ben Nevis").data,
            Section := ("Wind").data, Measurement := ("Wind").data,
            MeasurementType := ("Speed").data, Units := ("mph").data,
            HourLabel := ("18:00").data, HourIndex := 0,
            ValueNumeric := none, ValueText := [], Notes := [] })] :=
  ⟨by decide, c4_harmonize_idempotent_amended _ (by decide)⟩

/-! ### Unfolding lemmas for `reconcileKey` -/

theorem reconcileKey_none (runMaps : List RunMap) (tols : ToleranceTable) (d : ℚ)
    (key : Key) (hs : (availableRecords runMaps key).head? = none) :
    reconcileKey runMaps tols d key = none := by
  unfold reconcileKey
  rw [hs]

theorem reconcileKey_some (runMaps : List RunMap) (tols : ToleranceTable) (d : ℚ)
    (key : Key) (sample : Record)
    (hs : (availableRecords runMaps key).head? = some sample) :
    reconcileKey runMaps tols d key = some
      ({ sample with
         Location := (mostCommon (locationCandidates runMaps key)).getD []
         ValueNumeric := (chooseValue sample.Section sample.MeasurementType
            (resolveTolerance tols sample.Section sample.MeasurementType sample.Measurement d)
            sample (collectTexts runMaps key sample.Section sample.MeasurementType)
            (collectNumerics runMaps key)).1
         ValueText := normalize_text_value sample.Section sample.MeasurementType
            (some (chooseValue sample.Section sample.MeasurementType
              (resolveTolerance tols sample.Section sample.MeasurementType sample.Measurement d)
              sample (collectTexts runMaps key sample.Section sample.MeasurementType)
              (collectNumerics runMaps key)).2.1) },
       (if missingRuns runMaps key ≠ [] then [Issue.missing_runs (missingRuns runMaps key)] else []) ++
       (if 1 < (firstOccurrences (locationCandidates runMaps key)).length then
          [Issue.location_mismatch (firstOccurrences (locationCandidates runMaps key))]
        else []) ++
       (chooseValue sample.Section sample.MeasurementType
          (resolveTolerance tols sample.Section sample.MeasurementType sample.Measurement d)
          sample (collectTexts runMaps key sample.Section sample.MeasurementType)
          (collectNumerics runMaps key)).2.2) := by
  unfold reconcileKey
  rw [hs]

/-- Every issue produced by the value-selection step is a
`text_mismatch`, a `numeric_variation`, or `missing_values`. -/
theorem chooseValue_issue_cases (sec mtype : Str) (tol : ℚ) (sample : Record)
    (texts : List (Str × Nat)) (nums : List (ℚ × Nat)) :
    ∀ i ∈ (chooseValue sec mtype tol sample texts nums).2.2,
      (∃ a b, i = Issue.text_mismatch a b) ∨ (∃ a b c, i = Issue.numeric_variation a b c) ∨
        i = Issue.missing_values := by
  intro i hi
  unfold chooseValue at hi
  by_cases h1 : texts ≠ []
  · rw [if_pos h1] at hi
    by_cases h2 : 1 < (firstOccurrences (texts.map Prod.fst)).length
    · rw [if_pos h2] at hi
      simp at hi
      exact Or.inl ⟨_, _, hi⟩
    · rw [if_neg h2] at hi
      simp at hi
  · rw [if_neg h1] at hi
    by_cases h2 : nums ≠ []
    · rw [if_pos h2] at hi
      by_cases h3 : 2 ≤ (nums.map Prod.fst).length ∧
          listMax (nums.map Prod.fst) - listMin (nums.map Prod.fst) > tol + 1/1000000
      · rw [if_pos h3] at hi
        simp at hi
        exact Or.inr (Or.inl ⟨_, _, _, hi⟩)
      · rw [if_neg h3] at hi
        simp at hi
    · rw [if_neg h2] at hi
      simp at hi
      exact Or.inr (Or.inr hi)

/-- Inversion for a `numeric_variation` issue out of the value step. -/
theorem chooseValue_numeric_variation {sec mtype : Str} {tol : ℚ} {sample : Record}
    {texts : List (Str × Nat)} {nums : List (ℚ × Nat)} {vs : List ℚ} {rs : List Nat} {t : ℚ}
    (h : Issue.numeric_variation vs rs t ∈ (chooseValue sec mtype tol sample texts nums).2.2) :
    texts = [] ∧ nums ≠ [] ∧ vs = nums.map Prod.fst ∧ rs = nums.map Prod.snd ∧ t = tol ∧
      2 ≤ (nums.map Prod.fst).length ∧
      listMax (nums.map Prod.fst) - listMin (nums.map Prod.fst) > tol + 1/1000000 := by
  unfold chooseValue at h
  by_cases h1 : texts ≠ []
  · rw [if_pos h1] at h
    by_cases h2 : 1 < (firstOccurrences (texts.map Prod.fst)).length
    · rw [if_pos h2] at h
      simp at h
    · rw [if_neg h2] at h
      simp at h
  · rw [if_neg h1] at h
    by_cases h2 : nums ≠ []
    · rw [if_pos h2] at h
      by_cases h3 : 2 ≤ (nums.map Prod.fst).length ∧
          listMax (nums.map Prod.fst) - listMin (nums.map Prod.fst) > tol + 1/1000000
      · rw [if_pos h3] at h
        simp at h
        obtain ⟨hv, hr, ht⟩ := h
        exact ⟨not_not.mp h1, h2, hv, hr, ht, h3.1, h3.2⟩
      · rw [if_neg h3] at h
        simp at h
    · rw [if_neg h2] at h
      simp at h

/-! ### Claim C7 — tolerance fallback -/

/-- C7: the tolerance used for the numeric spread comparison is the table
entry for `(section, measurementType)` when present, else the entry for
`(section, measurement)`, else the caller-supplied default; every
`numeric_variation` issue emitted by the per-key reconciliation carries
exactly this resolved tolerance.  (The table is a pure value here, so it
is never mutated by resolution.) -/
theorem c7_tolerance_fallback (tols : ToleranceTable) (sec mtype meas : Str) (d : ℚ) :
    (∀ t, alookup tols (sec, mtype) = some t → resolveTolerance tols sec mtype meas d = t) ∧
    (alookup tols (sec, mtype) = none →
      ∀ t, alookup tols (sec, meas) = some t → resolveTolerance tols sec mtype meas d = t) ∧
    (alookup tols (sec, mtype) = none → alookup tols (sec, meas) = none →
      resolveTolerance tols sec mtype meas d = d) ∧
    (∀ (runMaps : List RunMap) (key : Key) (rec : Record) (issues : List Issue)
        (vs : List ℚ) (rs : List Nat) (t : ℚ),
      reconcileKey runMaps tols d key = some (rec, issues) →
      Issue.numeric_variation vs rs t ∈ issues →
      t = resolveTolerance tols rec.Section rec.MeasurementType rec.Measurement d) := by
  refine ⟨?_, ?_, ?_, ?_⟩
  · intro t ht
    unfold resolveTolerance
    rw [ht]
  · intro h1 t ht
    unfold resolveTolerance
    rw [h1, ht]
    rfl
  · intro h1 h2
    unfold resolveTolerance
    rw [h1, h2]
    rfl
  · intro runMaps key rec issues vs rs t hrec hmem
    rcases hsamp : (availableRecords runMaps key).head? with _ | sample
    · rw [reconcileKey_none _ _ _ _ hsamp] at hrec
      cases hrec
    · rw [reconcileKey_some _ _ _ _ _ hsamp] at hrec
      cases hrec
      rcases List.mem_append.mp hmem with hmem' | hmem'
      · rcases List.mem_append.mp hmem' with hmem'' | hmem''
        · by_cases hc : missingRuns runMaps key ≠ []
          · rw [if_pos hc] at hmem''
            simp at hmem''
          · rw [if_neg hc] at hmem''
            simp at hmem''
        · by_cases hc : 1 < (firstOccurrences (locationCandidates runMaps key)).length
          · rw [if_pos hc] at hmem''
            simp at hmem''
          · rw [if_neg hc] at hmem''
            simp at hmem''
      · exact (chooseValue_numeric_variation hmem').2.2.2.2.1

theorem c7_witness :
    (alookup DEFAULT_NUMERIC_TOLERANCES (("Wind").data, ("Speed").data) = some 3 ∧
      resolveTolerance DEFAULT_NUMERIC_TOLERANCES (("Wind").data) (("Speed").data) (("Wind").data) 1 = 3) ∧
    (alookup DEFAULT_NUMERIC_TOLERANCES (("Precip").data, ("Type").data) = none ∧
      alookup DEFAULT_NUMERIC_TOLERANCES (("Precip").data, ("Precipitation").data) = none ∧
      resolveTolerance DEFAULT_NUMERIC_TOLERANCES (("Precip").data) (("Type").data) (("Precipitation").data) 1 = 1) ∧
    (alookup ([((("Precip").data, ("Precipitation").data), 2)] : ToleranceTable)
        ((("Precip").data, ("Rain").data)) = none ∧
      resolveTolerance ([((("Precip").data, ("Precipitation").data), 2)] : ToleranceTable)
        (("Precip").data) (("Rain").data) (("Precipitation").data) 1 = 2) :=
  ⟨⟨by decide,
    (c7_tolerance_fallback DEFAULT_NUMERIC_TOLERANCES (("Wind").data) (("Speed").data) (("Wind").data) 1).1 3 (by decide)⟩,
   ⟨by decide, by decide,
    (c7_tolerance_fallback DEFAULT_NUMERIC_TOLERANCES (("Precip").data) (("Type").data) (("Precipitation").data) 1).2.2.1
      (by decide) (by decide)⟩,
   ⟨by decide,
    (c7_tolerance_fallback ([((("Precip").data, ("Precipitation").data), 2)] : ToleranceTable)
        (("Precip").data) (("Rain").data) (("Precipitation").data) 1).2.1
      (by decide) 2 (by decide)⟩⟩

/-! ### Claim C9 — per-key location vote -/

/-- C9: the provisional (pre-harmonization) location of a key is the
most frequent collected location candidate (ties by encounter order), or
`""` when no candidates exist; a `location_mismatch` issue listing the
distinct candidate values (in encounter order) is emitted if and only if
more than one distinct value appears. -/
theorem c9_location_vote (runMaps : List RunMap) (tols : ToleranceTable) (d : ℚ)
    (key : Key) (rec : Record) (issues : List Issue)
    (h : reconcileKey runMaps tols d key = some (rec, issues)) :
    (locationCandidates runMaps key = [] → rec.Location = []) ∧
    (∀ a, mostCommon (locationCandidates runMaps key) = some a →
      rec.Location = a ∧ a ∈ locationCandidates runMaps key ∧
      (∀ b ∈ locationCandidates runMaps key,
        countOcc (locationCandidates runMaps key) b ≤ countOcc (locationCandidates runMaps key) a) ∧
      ∃ t₁ t₂, locationCandidates runMaps key = t₁ ++ a :: t₂ ∧
        ∀ b ∈ t₁, countOcc (locationCandidates runMaps key) b < countOcc (locationCandidates runMaps key) a) ∧
    ((∃ locs, Issue.location_mismatch locs ∈ issues) ↔
      1 < (firstOccurrences (locationCandidates runMaps key)).length) ∧
    (∀ locs, Issue.location_mismatch locs ∈ issues →
      locs = firstOccurrences (locationCandidates runMaps key)) ∧
    (firstOccurrences (locationCandidates runMaps key)).Nodup ∧
    (∀ x, x ∈ firstOccurrences (locationCandidates runMaps key) ↔
      x ∈ locationCandidates runMaps key) ∧
    (1 < (firstOccurrences (locationCandidates runMaps key)).length ↔
      ∃ x ∈ locationCandidates runMaps key, ∃ y ∈ locationCandidates runMaps key, x ≠ y) := by
  rcases hsamp : (availableRecords runMaps key).head? with _ | sample
  · rw [reconcileKey_none _ _ _ _ hsamp] at h
    cases h
  · rw [reconcileKey_some _ _ _ _ _ hsamp] at h
    cases h
    have hmemiff : ∀ locs, Issue.location_mismatch locs ∈
        ((if missingRuns runMaps key ≠ [] then [Issue.missing_runs (missingRuns runMaps key)] else []) ++
        (if 1 < (firstOccurrences (locationCandidates runMaps key)).length then
          [Issue.location_mismatch (firstOccurrences (locationCandidates runMaps key))]
        else []) ++
        (chooseValue sample.Section sample.MeasurementType
          (resolveTolerance tols sample.Section sample.MeasurementType sample.Measurement d)
          sample (collectTexts runMaps key sample.Section sample.MeasurementType)
          (collectNumerics runMaps key)).2.2) ↔
        (1 < (firstOccurrences (locationCandidates runMaps key)).length ∧
          locs = firstOccurrences (locationCandidates runMaps key)) := by
      intro locs
      constructor
      · intro hmem
        rcases List.mem_append.mp hmem with hmem' | hmem'
        · rcases List.mem_append.mp hmem' with hmem'' | hmem''
          · by_cases hc : missingRuns runMaps key ≠ []
            · rw [if_pos hc] at hmem''
              simp at hmem''
            · rw [if_neg hc] at hmem''
              simp at hmem''
          · by_cases hc : 1 < (firstOccurrences (locationCandidates runMaps key)).length
            · rw [if_pos hc] at hmem''
              simp at hmem''
              exact ⟨hc, hmem''⟩
            · rw [if_neg hc] at hmem''
              simp at hmem''
        · rcases chooseValue_issue_cases _ _ _ _ _ _ _ hmem' with ⟨a, b, heq⟩ | ⟨a, b, c, heq⟩ | heq
          · cases heq
          · cases heq
          · cases heq
      · rintro ⟨hc, rfl⟩
        refine List.mem_append.mpr (Or.inl (List.mem_append.mpr (Or.inr ?_)))
        rw [if_pos hc]
        simp
    refine ⟨?_, ?_, ?_, ?_, nodup_firstOccurrences _, fun x => mem_firstOccurrences _ x,
      one_lt_firstOccurrences_length_iff _⟩
    · intro hnil
      show (mostCommon (locationCandidates runMaps key)).getD [] = []
      rw [(mostCommon_eq_none_iff _).mpr hnil]
      rfl
    · intro a hmc
      obtain ⟨hmem, hmax, hsplit⟩ := mostCommon_spec _ _ hmc
      refine ⟨?_, hmem, hmax, hsplit⟩
      show (mostCommon (locationCandidates runMaps key)).getD [] = a
      rw [hmc]
      rfl
    · constructor
      · rintro ⟨locs, hmem⟩
        exact ((hmemiff locs).mp hmem).1
      · intro hc
        exact ⟨_, (hmemiff _).mpr ⟨hc, rfl⟩⟩
    · intro locs hmem
      exact ((hmemiff locs).mp hmem).2

theorem c9_witness :
    ({ SourceFile := ("f").data, Page := 1, Location := ("A").data,
       Section := ("Wind").data, Measurement := ("Wind").data,
       MeasurementType := ("Direction").data, Units := [],
       HourLabel := ("18:00").data, HourIndex := 0,
       ValueNumeric := none, ValueText := ("N").data, Notes := [] } : Record).Location = ("A").data ∧
    ((∃ locs, Issue.location_mismatch locs ∈ [Issue.location_mismatch [("A").data, ("B").data]]) ↔
      1 < (firstOccurrences (locationCandidates
        [[((("f").data, 1, ("Wind").data, ("Wind").data, ("Direction").data, 0, ("18:00").data),
           { SourceFile := ("f").data, Page := 1, Location := ("A").data,
             Section := ("Wind").data, Measurement := ("Wind").data,
             MeasurementType := ("Direction").data, Units := [],
             HourLabel := ("18:00").data, HourIndex := 0,
             ValueNumeric := none, ValueText := ("N").data, Notes := [] })],
         [((("f").data, 1, ("Wind").data, ("Wind").data, ("Direction").data, 0, ("18:00").data),
           { SourceFile := ("f").data, Page := 1, Location := ("B").data,
             Section := ("Wind").data, Measurement := ("Wind").data,
             MeasurementType := ("Direction").data, Units := [],
             HourLabel := ("18:00").data, HourIndex := 0,
             ValueNumeric := none, ValueText := ("N").data, Notes := [] })]]
        ((("f").data, 1, ("Wind").data, ("Wind").data, ("Direction").data, 0, ("18:00").data)))).length) := by
  have hc := c9_location_vote
    [[((("f").data, 1, ("Wind").data, ("Wind").data, ("Direction").data, 0, ("18:00").data),
       { SourceFile := ("f").data, Page := 1, Location := ("A").data,
         Section := ("Wind").data, Measurement := ("Wind").data,
         MeasurementType := ("Direction").data, Units := [],
         HourLabel := ("18:00").data, HourIndex := 0,
         ValueNumeric := none, ValueText := ("N").data, Notes := [] })],
     [((("f").data, 1, ("Wind").data, ("Wind").data, ("Direction").data, 0, ("18:00").data),
       { SourceFile := ("f").data, Page := 1, Location := ("B").data,
         Section := ("Wind").data, Measurement := ("Wind").data,
         MeasurementType := ("Direction").data, Units := [],
         HourLabel := ("18:00").data, HourIndex := 0,
         ValueNumeric := none, ValueText := ("N").data, Notes := [] })]]
    [] 1
    ((("f").data, 1, ("Wind").data, ("Wind").data, ("Direction").data, 0, ("18:00").data))
    { SourceFile := ("f").data, Page := 1, Location := ("A").data,
      Section := ("Wind").data, Measurement := ("Wind").data,
      MeasurementType := ("Direction").data, Units := [],
      HourLabel := ("18:00").data, HourIndex := 0,
      ValueNumeric := none, ValueText := ("N").data, Notes := [] }
    [Issue.location_mismatch [("A").data, ("B").data]]
    (by decide)
  exact ⟨(hc.2.1 (("A").data) (by decide)).1, hc.2.2.1⟩

/-! ### Claim C6 — text priority over numeric -/

theorem alias_value_eq {x a : Str} (h : alookup PRECIP_TYPE_ALIASES x = some a) :
    a = ("No Precip").data := by
  simp only [PRECIP_TYPE_ALIASES, alookup] at h
  split_ifs at h <;> (injection h with h; exact h.symm)

theorem normalize_precip_type_idem (v : Option Str) :
    normalize_precip_type (some (normalize_precip_type v)) = normalize_precip_type v := by
  match v with
  | none => decide
  | some s =>
    simp only [normalize_precip_type]
    by_cases h0 : pyStrip s = []
    · rw [if_pos h0]
      decide
    · rw [if_neg h0]
      rcases h1 : alookup PRECIP_TYPE_ALIASES (pyStrip s) with _ | a
      · rcases h2 : alookup PRECIP_TYPE_ALIASES (pyLower (pyStrip s)) with _ | a
        · simp only [Option.getD]
          rw [pyStrip_idem, if_neg h0, h1, h2]
        · simp only [Option.getD]
          rw [alias_value_eq h2]
          dsimp only
          decide
      · rw [alias_value_eq h1]
        dsimp only
        decide

theorem normalize_text_value_idem (sec mtype : Str) (v : Option Str) :
    normalize_text_value sec mtype (some (normalize_text_value sec mtype v)) =
      normalize_text_value sec mtype v := by
  unfold normalize_text_value
  by_cases hc : sec = ("Precip").data ∧ mtype = ("Type").data
  · rw [if_pos hc, if_pos hc]
    have hstrip : ∀ w : Option Str, pyStrip (normalize_precip_type w) = normalize_precip_type w := by
      intro w
      match w with
      | none => decide
      | some s =>
        simp only [normalize_precip_type]
        by_cases h0 : pyStrip s = []
        · rw [if_pos h0]; decide
        · rw [if_neg h0]
          rcases h1 : alookup PRECIP_TYPE_ALIASES (pyStrip s) with _ | a
          · rcases h2 : alookup PRECIP_TYPE_ALIASES (pyLower (pyStrip s)) with _ | a
            · simp only [Option.getD]
              exact pyStrip_idem _
            · simp only [Option.getD]
              rw [alias_value_eq h2]
              decide
          · rw [alias_value_eq h1]
            dsimp only
            decide
    rw [Option.getD_some, hstrip (some (pyStrip (v.getD [])))]
    exact normalize_precip_type_idem _
  · rw [if_neg hc, if_neg hc, Option.getD_some]
    exact pyStrip_idem _

theorem mem_collectTexts {runMaps : List RunMap} {key : Key} {sec mtype : Str}
    {t : Str} {i : Nat} (h : (t, i) ∈ collectTexts runMaps key sec mtype) :
    t ≠ [] ∧ ∃ row : Record, t = normalize_text_value sec mtype (some row.ValueText) := by
  unfold collectTexts at h
  rw [List.mem_filterMap] at h
  obtain ⟨p, _, hf⟩ := h
  rcases p with ⟨i', orow⟩
  rcases orow with _ | row
  · cases hf
  · dsimp only at hf
    by_cases hc : normalize_text_value sec mtype (some row.ValueText) ≠ []
    · rw [if_pos hc] at hf
      cases hf
      exact ⟨hc, row, rfl⟩
    · rw [if_neg hc] at hf
      cases hf

theorem chooseValue_text {sec mtype : Str} {tol : ℚ} {sample : Record}
    {texts : List (Str × Nat)} {nums : List (ℚ × Nat)} (hne : texts ≠ []) :
    chooseValue sec mtype tol sample texts nums =
      ((none : Option ℚ), (mostCommon (texts.map Prod.fst)).getD [],
        if 1 < (firstOccurrences (texts.map Prod.fst)).length then
          [Issue.text_mismatch (firstOccurrences (texts.map Prod.fst)) (texts.map Prod.snd)]
        else []) := by
  unfold chooseValue
  rw [if_pos hne]

/-- C6: when any normalized text value exists for a key, the final value
is the most frequent text value (ties broken by encounter order), the
numeric slot is left empty, and a `text_mismatch` issue listing the
distinct values (in encounter order) with the contributing run indices is
emitted if and only if more than one distinct text value appears. -/
theorem c6_text_priority (runMaps : List RunMap) (tols : ToleranceTable) (d : ℚ)
    (key : Key) (rec : Record) (issues : List Issue)
    (h : reconcileKey runMaps tols d key = some (rec, issues))
    (hne : collectTexts runMaps key rec.Section rec.MeasurementType ≠ []) :
    (∀ a, mostCommon ((collectTexts runMaps key rec.Section rec.MeasurementType).map Prod.fst) = some a →
      rec.ValueText = a ∧
      a ∈ (collectTexts runMaps key rec.Section rec.MeasurementType).map Prod.fst ∧
      (∀ b ∈ (collectTexts runMaps key rec.Section rec.MeasurementType).map Prod.fst,
        countOcc ((collectTexts runMaps key rec.Section rec.MeasurementType).map Prod.fst) b ≤
          countOcc ((collectTexts runMaps key rec.Section rec.MeasurementType).map Prod.fst) a) ∧
      ∃ t₁ t₂, (collectTexts runMaps key rec.Section rec.MeasurementType).map Prod.fst = t₁ ++ a :: t₂ ∧
        ∀ b ∈ t₁, countOcc ((collectTexts runMaps key rec.Section rec.MeasurementType).map Prod.fst) b <
          countOcc ((collectTexts runMaps key rec.Section rec.MeasurementType).map Prod.fst) a) ∧
    rec.ValueNumeric = none ∧
    ((∃ vs rs, Issue.text_mismatch vs rs ∈ issues) ↔
      1 < (firstOccurrences ((collectTexts runMaps key rec.Section rec.MeasurementType).map Prod.fst)).length) ∧
    (∀ vs rs, Issue.text_mismatch vs rs ∈ issues →
      vs = firstOccurrences ((collectTexts runMaps key rec.Section rec.MeasurementType).map Prod.fst) ∧
      rs = (collectTexts runMaps key rec.Section rec.MeasurementType).map Prod.snd) ∧
    (1 < (firstOccurrences ((collectTexts runMaps key rec.Section rec.MeasurementType).map Prod.fst)).length ↔
      ∃ x ∈ (collectTexts runMaps key rec.Section rec.MeasurementType).map Prod.fst,
        ∃ y ∈ (collectTexts runMaps key rec.Section rec.MeasurementType).map Prod.fst, x ≠ y) := by
  rcases hsamp : (availableRecords runMaps key).head? with _ | sample
  · rw [reconcileKey_none _ _ _ _ hsamp] at h
    cases h
  · rw [reconcileKey_some _ _ _ _ _ hsamp] at h
    cases h
    have hne' : collectTexts runMaps key sample.Section sample.MeasurementType ≠ [] := hne
    have hcv := @chooseValue_text sample.Section sample.MeasurementType
      (resolveTolerance tols sample.Section sample.MeasurementType sample.Measurement d)
      sample (collectTexts runMaps key sample.Section sample.MeasurementType)
      (collectNumerics runMaps key) hne'
    have hmemiff : ∀ vs rs, Issue.text_mismatch vs rs ∈
        ((if missingRuns runMaps key ≠ [] then [Issue.missing_runs (missingRuns runMaps key)] else []) ++
        (if 1 < (firstOccurrences (locationCandidates runMaps key)).length then
          [Issue.location_mismatch (firstOccurrences (locationCandidates runMaps key))]
        else []) ++
        (chooseValue sample.Section sample.MeasurementType
          (resolveTolerance tols sample.Section sample.MeasurementType sample.Measurement d)
          sample (collectTexts runMaps key sample.Section sample.MeasurementType)
          (collectNumerics runMaps key)).2.2) ↔
        (1 < (firstOccurrences ((collectTexts runMaps key sample.Section sample.MeasurementType).map Prod.fst)).length ∧
          vs = firstOccurrences ((collectTexts runMaps key sample.Section sample.MeasurementType).map Prod.fst) ∧
          rs = (collectTexts runMaps key sample.Section sample.MeasurementType).map Prod.snd) := by
      intro vs rs
      rw [hcv]
      constructor
      · intro hmem
        rcases List.mem_append.mp hmem with hmem' | hmem'
        · rcases List.mem_append.mp hmem' with hmem'' | hmem''
          · by_cases hc : missingRuns runMaps key ≠ []
            · rw [if_pos hc] at hmem''
              simp at hmem''
            · rw [if_neg hc] at hmem''
              simp at hmem''
          · by_cases hc : 1 < (firstOccurrences (locationCandidates runMaps key)).length
            · rw [if_pos hc] at hmem''
              simp at hmem''
            · rw [if_neg hc] at hmem''
              simp at hmem''
        · by_cases hc : 1 < (firstOccurrences ((collectTexts runMaps key sample.Section sample.MeasurementType).map Prod.fst)).length
          · rw [if_pos hc] at hmem'
            simp at hmem'
            exact ⟨hc, hmem'.1, hmem'.2⟩
          · rw [if_neg hc] at hmem'
            simp at hmem'
      · rintro ⟨hc, rfl, rfl⟩
        refine List.mem_append.mpr (Or.inr ?_)
        rw [if_pos hc]
        simp
    refine ⟨?_, ?_, ?_, ?_, one_lt_firstOccurrences_length_iff _⟩
    · intro a hmc
      obtain ⟨hmem, hmax, hsplit⟩ := mostCommon_spec _ _ hmc
      refine ⟨?_, hmem, hmax, hsplit⟩
      show normalize_text_value sample.Section sample.MeasurementType
        (some (chooseValue sample.Section sample.MeasurementType
          (resolveTolerance tols sample.Section sample.MeasurementType sample.Measurement d)
          sample (collectTexts runMaps key sample.Section sample.MeasurementType)
          (collectNumerics runMaps key)).2.1) = a
      rw [hcv]
      show normalize_text_value sample.Section sample.MeasurementType
        (some ((mostCommon ((collectTexts runMaps key sample.Section sample.MeasurementType).map Prod.fst)).getD [])) = a
      rw [hmc]
      obtain ⟨⟨t, i⟩, hpair, hfst⟩ := List.mem_map.mp hmem
      obtain ⟨_, row, hrow⟩ := mem_collectTexts hpair
      dsimp at hfst
      subst hfst
      rw [Option.getD_some, hrow, normalize_text_value_idem]
    · show (chooseValue sample.Section sample.MeasurementType
        (resolveTolerance tols sample.Section sample.MeasurementType sample.Measurement d)
        sample (collectTexts runMaps key sample.Section sample.MeasurementType)
        (collectNumerics runMaps key)).1 = none
      rw [hcv]
    · constructor
      · rintro ⟨vs, rs, hmem⟩
        exact ((hmemiff vs rs).mp hmem).1
      · intro hc
        exact ⟨_, _, (hmemiff _ _).mpr ⟨hc, rfl, rfl⟩⟩
    · intro vs rs hmem
      exact ⟨((hmemiff vs rs).mp hmem).2.1, ((hmemiff vs rs).mp hmem).2.2⟩

theorem c6_witness :
    reconcileKey
      [[((("f").data, 1, ("Precip").data, ("Precipitation").data, ("Type").data, 0, ("18:00").data),
         { SourceFile := ("f").data, Page := 1, Location := [],
           Section := ("Precip").data, Measurement := ("Precipitation").data,
           MeasurementType := ("Type").data, Units := [],
           HourLabel := ("18:00").data, HourIndex := 0,
           ValueNumeric := none, ValueText := ("Snow").data, Notes := [] })],
       [((("f").data, 1, ("Precip").data, ("Precipitation").data, ("Type").data, 0, ("18:00").data),
         { SourceFile := ("f").data, Page := 1, Location := [],
           Section := ("Precip").data, Measurement := ("Precipitation").data,
           MeasurementType := ("Type").data, Units := [],
           HourLabel := ("18:00").data, HourIndex := 0,
           ValueNumeric := some 0, ValueText := [], Notes := [] })]]
      [] 1
      ((("f").data, 1, ("Precip").data, ("Precipitation").data, ("Type").data, 0, ("18:00").data)) =
    some ({ SourceFile := ("f").data, Page := 1, Location := [],
            Section := ("Precip").data, Measurement := ("Precipitation").data,
            MeasurementType := ("Type").data, Units := [],
            HourLabel := ("18:00").data, HourIndex := 0,
            ValueNumeric := none, ValueText := ("Snow").data, Notes := [] }, []) ∧
    ({ SourceFile := ("f").data, Page := 1, Location := [],
       Section := ("Precip").data, Measurement := ("Precipitation").data,
       MeasurementType := ("Type").data, Units := [],
       HourLabel := ("18:00").data, HourIndex := 0,
       ValueNumeric := none, ValueText := ("Snow").data, Notes := [] } : Record).ValueText = ("Snow").data ∧
    ({ SourceFile := ("f").data, Page := 1, Location := [],
       Section := ("Precip").data, Measurement := ("Precipitation").data,
       MeasurementType := ("Type").data, Units := [],
       HourLabel := ("18:00").data, HourIndex := 0,
       ValueNumeric := none, ValueText := ("Snow").data, Notes := [] } : Record).ValueNumeric = none := by
  have hc := c6_text_priority
    [[((("f").data, 1, ("Precip").data, ("Precipitation").data, ("Type").data, 0, ("18:00").data),
       { SourceFile := ("f").data, Page := 1, Location := [],
         Section := ("Precip").data, Measurement := ("Precipitation").data,
         MeasurementType := ("Type").data, Units := [],
         HourLabel := ("18:00").data, HourIndex := 0,
         ValueNumeric := none, ValueText := ("Snow").data, Notes := [] })],
     [((("f").data, 1, ("Precip").data, ("Precipitation").data, ("Type").data, 0, ("18:00").data),
       { SourceFile := ("f").data, Page := 1, Location := [],
         Section := ("Precip").data, Measurement := ("Precipitation").data,
         MeasurementType := ("Type").data, Units := [],
         HourLabel := ("18:00").data, HourIndex := 0,
         ValueNumeric := some 0, ValueText := [], Notes := [] })]]
    [] 1
    ((("f").data, 1, ("Precip").data, ("Precipitation").data, ("Type").data, 0, ("18:00").data))
    { SourceFile := ("f").data, Page := 1, Location := [],
      Section := ("Precip").data, Measurement := ("Precipitation").data,
      MeasurementType := ("Type").data, Units := [],
      HourLabel := ("18:00").data, HourIndex := 0,
      ValueNumeric := none, ValueText := ("Snow").data, Notes := [] }
    [] (by decide) (by decide)
  exact ⟨by decide, (hc.1 (("Snow").data) (by decide)).1, hc.2.1⟩

/-! ### Claim C3 — numeric consensus -/

theorem chooseValue_numeric {sec mtype : Str} {tol : ℚ} {sample : Record}
    {texts : List (Str × Nat)} {nums : List (ℚ × Nat)}
    (htext : texts = []) (hnum : nums ≠ []) :
    chooseValue sec mtype tol sample texts nums =
      (some (format_numeric_value sec mtype (pyMedian (nums.map Prod.fst))), ([] : Str),
        if 2 ≤ (nums.map Prod.fst).length ∧
            listMax (nums.map Prod.fst) - listMin (nums.map Prod.fst) > tol + 1/1000000 then
          [Issue.numeric_variation (nums.map Prod.fst) (nums.map Prod.snd) tol]
        else []) := by
  subst htext
  unfold chooseValue
  rw [if_neg (by simp), if_pos hnum]

/-- C3: for a key with no usable text value and at least one numeric
value, the consensus value is the quantized median of the numeric values;
a `numeric_variation` issue carrying the raw values, contributing run
indices and the resolved tolerance is emitted if and only if at least two
numeric values are available and their spread exceeds the tolerance plus
the `1e-6` epsilon guard. -/
theorem c3_numeric_consensus (runMaps : List RunMap) (tols : ToleranceTable) (d : ℚ)
    (key : Key) (rec : Record) (issues : List Issue)
    (h : reconcileKey runMaps tols d key = some (rec, issues))
    (htext : collectTexts runMaps key rec.Section rec.MeasurementType = [])
    (hnum : collectNumerics runMaps key ≠ []) :
    rec.ValueNumeric = some (format_numeric_value rec.Section rec.MeasurementType
      (pyMedian ((collectNumerics runMaps key).map Prod.fst))) ∧
    ((∃ vs rs t, Issue.numeric_variation vs rs t ∈ issues) ↔
      (2 ≤ ((collectNumerics runMaps key).map Prod.fst).length ∧
        listMax ((collectNumerics runMaps key).map Prod.fst) -
          listMin ((collectNumerics runMaps key).map Prod.fst) >
          resolveTolerance tols rec.Section rec.MeasurementType rec.Measurement d + 1/1000000)) ∧
    (∀ vs rs t, Issue.numeric_variation vs rs t ∈ issues →
      vs = (collectNumerics runMaps key).map Prod.fst ∧
      rs = (collectNumerics runMaps key).map Prod.snd ∧
      t = resolveTolerance tols rec.Section rec.MeasurementType rec.Measurement d) := by
  rcases hsamp : (availableRecords runMaps key).head? with _ | sample
  · rw [reconcileKey_none _ _ _ _ hsamp] at h
    cases h
  · rw [reconcileKey_some _ _ _ _ _ hsamp] at h
    cases h
    have htext' : collectTexts runMaps key sample.Section sample.MeasurementType = [] := htext
    have hcv := @chooseValue_numeric sample.Section sample.MeasurementType
      (resolveTolerance tols sample.Section sample.MeasurementType sample.Measurement d)
      sample (collectTexts runMaps key sample.Section sample.MeasurementType)
      (collectNumerics runMaps key) htext' hnum
    have hmemiff : ∀ vs rs t, Issue.numeric_variation vs rs t ∈
        ((if missingRuns runMaps key ≠ [] then [Issue.missing_runs (missingRuns runMaps key)] else []) ++
        (if 1 < (firstOccurrences (locationCandidates runMaps key)).length then
          [Issue.location_mismatch (firstOccurrences (locationCandidates runMaps key))]
        else []) ++
        (chooseValue sample.Section sample.MeasurementType
          (resolveTolerance tols sample.Section sample.MeasurementType sample.Measurement d)
          sample (collectTexts runMaps key sample.Section sample.MeasurementType)
          (collectNumerics runMaps key)).2.2) ↔
        ((2 ≤ ((collectNumerics runMaps key).map Prod.fst).length ∧
          listMax ((collectNumerics runMaps key).map Prod.fst) -
            listMin ((collectNumerics runMaps key).map Prod.fst) >
            resolveTolerance tols sample.Section sample.MeasurementType sample.Measurement d + 1/1000000) ∧
          vs = (collectNumerics runMaps key).map Prod.fst ∧
          rs = (collectNumerics runMaps key).map Prod.snd ∧
          t = resolveTolerance tols sample.Section sample.MeasurementType sample.Measurement d) := by
      intro vs rs t
      rw [hcv]
      constructor
      · intro hmem
        rcases List.mem_append.mp hmem with hmem' | hmem'
        · rcases List.mem_append.mp hmem' with hmem'' | hmem''
          · by_cases hc : missingRuns runMaps key ≠ []
            · rw [if_pos hc] at hmem''
              simp at hmem''
            · rw [if_neg hc] at hmem''
              simp at hmem''
          · by_cases hc : 1 < (firstOccurrences (locationCandidates runMaps key)).length
            · rw [if_pos hc] at hmem''
              simp at hmem''
            · rw [if_neg hc] at hmem''
              simp at hmem''
        · by_cases hc : 2 ≤ ((collectNumerics runMaps key).map Prod.fst).length ∧
              listMax ((collectNumerics runMaps key).map Prod.fst) -
                listMin ((collectNumerics runMaps key).map Prod.fst) >
                resolveTolerance tols sample.Section sample.MeasurementType sample.Measurement d + 1/1000000
          · rw [if_pos hc] at hmem'
            simp at hmem'
            exact ⟨hc, hmem'.1, hmem'.2.1, hmem'.2.2⟩
          · rw [if_neg hc] at hmem'
            simp at hmem'
      · rintro ⟨hc, rfl, rfl, rfl⟩
        refine List.mem_append.mpr (Or.inr ?_)
        rw [if_pos hc]
        simp
    refine ⟨?_, ?_, ?_⟩
    · show (chooseValue sample.Section sample.MeasurementType
        (resolveTolerance tols sample.Section sample.MeasurementType sample.Measurement d)
        sample (collectTexts runMaps key sample.Section sample.MeasurementType)
        (collectNumerics runMaps key)).1 = _
      rw [hcv]
    · constructor
      · rintro ⟨vs, rs, t, hmem⟩
        exact ((hmemiff vs rs t).mp hmem).1
      · intro hc
        exact ⟨_, _, _, (hmemiff _ _ _).mpr ⟨hc, rfl, rfl, rfl⟩⟩
    · intro vs rs t hmem
      exact ((hmemiff vs rs t).mp hmem).2

theorem roundHalfEven_intCast (n : ℤ) : roundHalfEven (n : ℚ) = n := by
  simp only [roundHalfEven, Int.floor_intCast, sub_self]
  rw [if_pos (by norm_num : (0:ℚ) < 1/2)]

theorem c3_witness :
    reconcileKey windSpeedRuns DEFAULT_NUMERIC_TOLERANCES 1 windSpeedKey =
      some (windSpeedRecord 13, [Issue.numeric_variation [12, 13, 40] [0, 1, 2] 3]) ∧
    (windSpeedRecord 13).ValueNumeric = some (format_numeric_value (windSpeedRecord 13).Section
      (windSpeedRecord 13).MeasurementType
      (pyMedian ((collectNumerics windSpeedRuns windSpeedKey).map Prod.fst))) ∧
    pyMedian [12, 13, 40] = 13 ∧
    listMax [12, 13, 40] - listMin [12, 13, 40] = 28 := by
  have hsamp : (availableRecords windSpeedRuns windSpeedKey).head? = some (windSpeedRecord 12) := by
    decide
  have h0 := reconcileKey_some windSpeedRuns DEFAULT_NUMERIC_TOLERANCES 1 windSpeedKey
    (windSpeedRecord 12) hsamp
  have htext : collectTexts windSpeedRuns windSpeedKey
      (windSpeedRecord 12).Section (windSpeedRecord 12).MeasurementType = [] := by decide
  have hnum : collectNumerics windSpeedRuns windSpeedKey ≠ [] := by decide
  have hcv := @chooseValue_numeric (windSpeedRecord 12).Section (windSpeedRecord 12).MeasurementType
    (resolveTolerance DEFAULT_NUMERIC_TOLERANCES (windSpeedRecord 12).Section
      (windSpeedRecord 12).MeasurementType (windSpeedRecord 12).Measurement 1)
    (windSpeedRecord 12)
    (collectTexts windSpeedRuns windSpeedKey
      (windSpeedRecord 12).Section (windSpeedRecord 12).MeasurementType)
    (collectNumerics windSpeedRuns windSpeedKey)
    htext hnum
  rw [hcv] at h0
  dsimp only at h0
  have hvals : (collectNumerics windSpeedRuns windSpeedKey).map Prod.fst = [12, 13, 40] := by decide
  have hruns : (collectNumerics windSpeedRuns windSpeedKey).map Prod.snd = [0, 1, 2] := by decide
  have htol : resolveTolerance DEFAULT_NUMERIC_TOLERANCES (windSpeedRecord 12).Section
      (windSpeedRecord 12).MeasurementType (windSpeedRecord 12).Measurement 1 = 3 := by decide
  rw [hvals, hruns, htol] at h0
  have hmed : pyMedian [(12:ℚ), 13, 40] = 13 := by decide
  rw [hmed] at h0
  have hfmt : format_numeric_value (windSpeedRecord 12).Section
      (windSpeedRecord 12).MeasurementType 13 = 13 := by
    show format_numeric_value (("Wind").data) (("Speed").data) 13 = 13
    unfold format_numeric_value
    rw [if_pos rfl, show (13:ℚ) = ((13:ℤ):ℚ) by norm_num, roundHalfEven_intCast]
  rw [hfmt] at h0
  have hcond : 2 ≤ ([(12:ℚ), 13, 40]).length ∧
      listMax [(12:ℚ), 13, 40] - listMin [(12:ℚ), 13, 40] > 3 + 1/1000000 := by
    refine ⟨by decide, ?_⟩
    rw [show listMax [(12:ℚ), 13, 40] = 40 by decide, show listMin [(12:ℚ), 13, 40] = 12 by decide]
    norm_num
  rw [if_pos hcond] at h0
  rw [if_neg (by decide : ¬ missingRuns windSpeedRuns windSpeedKey ≠ [])] at h0
  rw [if_neg (by decide :
    ¬ 1 < (firstOccurrences (locationCandidates windSpeedRuns windSpeedKey)).length)] at h0
  have hfinish : (({ windSpeedRecord 12 with
      Location := (mostCommon (locationCandidates windSpeedRuns windSpeedKey)).getD []
      ValueNumeric := some 13
      ValueText := normalize_text_value (windSpeedRecord 12).Section
        (windSpeedRecord 12).MeasurementType (some []) } : Record),
      ([] : List Issue) ++ [] ++ [Issue.numeric_variation [12, 13, 40] [0, 1, 2] 3]) =
      ((windSpeedRecord 13 : Record), [Issue.numeric_variation [12, 13, 40] [0, 1, 2] 3]) := by
    decide
  rw [hfinish] at h0
  have hc3 := c3_numeric_consensus windSpeedRuns DEFAULT_NUMERIC_TOLERANCES 1 windSpeedKey _ _
    h0 (by decide) (by decide)
  exact ⟨h0, hc3.1, hmed, by rw [show listMax [(12:ℚ), 13, 40] = 40 by decide,
    show listMin [(12:ℚ), 13, 40] = 12 by decide]; norm_num⟩

/-! ### Aggregate-level lemmas (`aggregate_runs`) -/

theorem alookup_map_pair {κ β : Type} [DecidableEq κ] (m : List (κ × β)) (F : β → β) (k : κ) :
    alookup (m.map (fun kr => (kr.1, F kr.2))) k = (alookup m k).map F := by
  induction m with
  | nil => rfl
  | cons p t ih =>
    obtain ⟨a, b⟩ := p
    by_cases h : a = k
    · subst h; simp [alookup]
    · simp [alookup, h, ih]

theorem alookup_harmonize (m : List (Key × Record)) (k : Key) :
    alookup (harmonize_locations m) k = (alookup m k).map (fun r =>
      { r with Location := (mostCommon (groupLocs (m.map Prod.snd) (graphKeyOf r))).getD [] }) := by
  exact alookup_map_pair m (fun r =>
    { r with Location := (mostCommon (groupLocs (m.map Prod.snd) (graphKeyOf r))).getD [] }) k

theorem reconcileKey_isSome_iff (runMaps : List RunMap) (tols : ToleranceTable) (d : ℚ)
    (k : Key) :
    (reconcileKey runMaps tols d k).isSome ↔ availableRecords runMaps k ≠ [] := by
  rcases h : (availableRecords runMaps k).head? with _ | s
  · rw [reconcileKey_none _ _ _ _ h]
    simp only [Option.isSome_none, Bool.false_eq_true, false_iff, not_not]
    exact List.head?_eq_none_iff.mp h
  · rw [reconcileKey_some _ _ _ _ _ h]
    simp only [Option.isSome_some, true_iff]
    intro hnil
    rw [hnil] at h
    cases h

theorem availableRecords_ne_nil_iff (runMaps : List RunMap) (k : Key) :
    availableRecords runMaps k ≠ [] ↔ ∃ m ∈ runMaps, (alookup m k).isSome := by
  constructor
  · intro h
    obtain ⟨r, hr⟩ := List.exists_mem_of_ne_nil _ h
    rw [availableRecords, List.mem_filterMap] at hr
    obtain ⟨orow, hmem, hid⟩ := hr
    rw [rowsFor, List.mem_map] at hmem
    obtain ⟨m, hm, hval⟩ := hmem
    refine ⟨m, hm, ?_⟩
    rw [hval, show orow = some r from hid]
    rfl
  · rintro ⟨m, hm, hsome⟩
    rcases hval : alookup m k with _ | r
    · rw [hval] at hsome; cases hsome
    · intro hnil
      have hr : r ∈ availableRecords runMaps k := by
        rw [availableRecords, List.mem_filterMap]
        exact ⟨some r, by rw [rowsFor, List.mem_map]; exact ⟨m, hm, hval⟩, rfl⟩
      rw [hnil] at hr
      cases hr

theorem aggregate_fold_lookup (runMaps : List RunMap) (tols : ToleranceTable) (d : ℚ)
    (keys : List Key) :
    ∀ (acc : List (Key × Record) × List DisagreementEntry) (k : Key),
      alookup (keys.foldl (aggregateStep runMaps tols d) acc).1 k =
      if k ∈ keys then optOr ((reconcileKey runMaps tols d k).map Prod.fst) (alookup acc.1 k)
      else alookup acc.1 k := by
  induction keys with
  | nil => intro acc k; simp
  | cons k' rest ih =>
    intro acc k
    rw [List.foldl_cons, ih]
    have hstep : alookup (aggregateStep runMaps tols d acc k').1 k =
        if k' = k then optOr ((reconcileKey runMaps tols d k').map Prod.fst) (alookup acc.1 k)
        else alookup acc.1 k := by
      unfold aggregateStep
      rcases hrk : reconcileKey runMaps tols d k' with _ | ⟨m, is⟩
      · dsimp only
        by_cases hkk : k' = k
        · subst hkk
          rw [if_pos rfl]
          simp [optOr]
        · rw [if_neg hkk]
      · dsimp only
        rw [alookup_ainsert]
        by_cases hkk : k' = k
        · subst hkk
          rw [if_pos rfl, if_pos rfl]
          simp [optOr]
        · rw [if_neg hkk, if_neg hkk]
    by_cases hk : k ∈ rest
    · rw [if_pos hk, if_pos (List.mem_cons_of_mem _ hk), hstep]
      by_cases hkk : k' = k
      · subst hkk
        rw [if_pos rfl]
        rcases hrk : reconcileKey runMaps tols d k' with _ | ⟨m, is⟩ <;> simp [optOr]
      · rw [if_neg hkk]
    · rw [if_neg hk, hstep]
      by_cases hkk : k' = k
      · subst hkk
        rw [if_pos rfl, if_pos (List.mem_cons_self _ _)]
      · rw [if_neg hkk, if_neg (by
          intro hmem
          rcases List.mem_cons.mp hmem with h | h
          · exact hkk h.symm
          · exact hk h)]

theorem mem_sortedCombinedKeys_iff (runMaps : List RunMap) (k : Key) :
    k ∈ sortedCombinedKeys runMaps ↔ ∃ m ∈ runMaps, (alookup m k).isSome := by
  rw [sortedCombinedKeys]
  rw [(List.perm_insertionSort _ _).mem_iff]
  rw [mem_firstOccurrences]
  rw [List.mem_flatten]
  constructor
  · rintro ⟨l, hl, hk⟩
    rw [List.mem_map] at hl
    obtain ⟨m, hm, rfl⟩ := hl
    exact ⟨m, hm, (alookup_isSome_iff m k).mpr hk⟩
  · rintro ⟨m, hm, hsome⟩
    exact ⟨m.map Prod.fst, List.mem_map.mpr ⟨m, hm, rfl⟩, (alookup_isSome_iff m k).mp hsome⟩

/-! ### Claim C1 — key completeness -/

/-- C1: the key set of the FinalRow map returned by `aggregate_runs`
equals the union of the key sets of the input RunMaps — a key is bound in
the output exactly when some input RunMap binds it. -/
theorem c1_key_completeness (runMaps : List RunMap) (tols : ToleranceTable) (d : ℚ) (k : Key) :
    (alookup (aggregate_runs runMaps tols d).1 k).isSome ↔
      ∃ m ∈ runMaps, (alookup m k).isSome := by
  unfold aggregate_runs
  by_cases hemp : runMaps.isEmpty
  · rw [if_pos hemp]
    obtain rfl : runMaps = [] := List.isEmpty_iff.mp hemp
    constructor
    · intro h
      exact nomatch h
    · rintro ⟨m, hm, -⟩
      exact nomatch hm
  · rw [if_neg hemp]
    dsimp only
    rw [alookup_harmonize, aggregate_fold_lookup]
    by_cases hk : k ∈ sortedCombinedKeys runMaps
    · rw [if_pos hk]
      have hk' := (mem_sortedCombinedKeys_iff runMaps k).mp hk
      constructor
      · intro _
        exact hk'
      · intro _
        have hne : availableRecords runMaps k ≠ [] :=
          (availableRecords_ne_nil_iff runMaps k).mpr hk'
        have hrs := (reconcileKey_isSome_iff runMaps tols d k).mpr hne
        rcases hrk : reconcileKey runMaps tols d k with _ | p
        · rw [hrk] at hrs
          cases hrs
        · rfl
    · rw [if_neg hk]
      constructor
      · intro hfalse
        simp [alookup] at hfalse
      · intro hex
        exact absurd ((mem_sortedCombinedKeys_iff runMaps k).mpr hex) hk

/-! ### Claim C10 — value-slot exclusivity -/

theorem chooseValue_fallback {sec mtype : Str} {tol : ℚ} {sample : Record}
    {texts : List (Str × Nat)} {nums : List (ℚ × Nat)}
    (ht : texts = []) (hn : nums = []) :
    chooseValue sec mtype tol sample texts nums =
      ((match sample.ValueNumeric with
        | some q => if q = 0 then none else some q
        | none => none),
       normalize_text_value sec mtype (some sample.ValueText), [Issue.missing_values]) := by
  subst ht
  subst hn
  unfold chooseValue
  rw [if_neg (by simp), if_neg (by simp)]

theorem normalize_text_value_nil (sec mtype : Str) :
    normalize_text_value sec mtype (some []) = [] := by
  unfold normalize_text_value
  split_ifs
  · decide
  · decide

/-- In the fallback branch (no usable text anywhere), the first available
record's own text normalizes to the empty string. -/
theorem sample_text_empty {runMaps : List RunMap} {key : Key} {sample : Record}
    (hs : (availableRecords runMaps key).head? = some sample)
    (ht : collectTexts runMaps key sample.Section sample.MeasurementType = []) :
    normalize_text_value sample.Section sample.MeasurementType (some sample.ValueText) = [] := by
  have hmem : sample ∈ availableRecords runMaps key := by
    rcases hl : availableRecords runMaps key with _ | ⟨a, t⟩
    · rw [hl] at hs
      cases hs
    · rw [hl] at hs
      injection hs with hs
      rw [hs]
      exact List.mem_cons_self _ _
  rw [availableRecords, List.mem_filterMap] at hmem
  obtain ⟨orow, horow, hid⟩ := hmem
  have horow' : some sample ∈ rowsFor runMaps key := by
    rw [show some sample = orow from (show orow = some sample from hid).symm]
    exact horow
  obtain ⟨i, hget⟩ := List.get?_of_mem horow'
  have henum : (i, some sample) ∈ (rowsFor runMaps key).enum :=
    List.mk_mem_enum_iff_get?.mpr hget
  rw [collectTexts, List.filterMap_eq_nil_iff] at ht
  have := ht (i, some sample) henum
  dsimp only at this
  by_cases hc : normalize_text_value sample.Section sample.MeasurementType (some sample.ValueText) ≠ []
  · rw [if_pos hc] at this
    cases this
  · exact not_not.mp hc

/-- Every merged row of the per-key reconciliation has at most one of
`ValueText`/`ValueNumeric` populated. -/
theorem reconcileKey_value_exclusive (runMaps : List RunMap) (tols : ToleranceTable) (d : ℚ)
    (k : Key) (rec : Record) (issues : List Issue)
    (h : reconcileKey runMaps tols d k = some (rec, issues)) :
    rec.ValueText = [] ∨ rec.ValueNumeric = none := by
  rcases hsamp : (availableRecords runMaps k).head? with _ | sample
  · rw [reconcileKey_none _ _ _ _ hsamp] at h
    cases h
  · rw [reconcileKey_some _ _ _ _ _ hsamp] at h
    cases h
    by_cases htext : collectTexts runMaps k sample.Section sample.MeasurementType = []
    · by_cases hnums : collectNumerics runMaps k = []
      · left
        show normalize_text_value sample.Section sample.MeasurementType
          (some (chooseValue sample.Section sample.MeasurementType
            (resolveTolerance tols sample.Section sample.MeasurementType sample.Measurement d)
            sample (collectTexts runMaps k sample.Section sample.MeasurementType)
            (collectNumerics runMaps k)).2.1) = []
        rw [chooseValue_fallback htext hnums]
        show normalize_text_value sample.Section sample.MeasurementType
          (some (normalize_text_value sample.Section sample.MeasurementType
            (some sample.ValueText))) = []
        rw [sample_text_empty hsamp htext]
        exact normalize_text_value_nil _ _
      · left
        show normalize_text_value sample.Section sample.MeasurementType
          (some (chooseValue sample.Section sample.MeasurementType
            (resolveTolerance tols sample.Section sample.MeasurementType sample.Measurement d)
            sample (collectTexts runMaps k sample.Section sample.MeasurementType)
            (collectNumerics runMaps k)).2.1) = []
        rw [chooseValue_numeric htext hnums]
        exact normalize_text_value_nil _ _
    · right
      show (chooseValue sample.Section sample.MeasurementType
        (resolveTolerance tols sample.Section sample.MeasurementType sample.Measurement d)
        sample (collectTexts runMaps k sample.Section sample.MeasurementType)
        (collectNumerics runMaps k)).1 = none
      rw [chooseValue_text htext]

/-- C10: every FinalRow produced by `aggregate_runs` has at most one of
`ValueText` and `ValueNumeric` non-empty. -/
theorem c10_value_slot_exclusive (runMaps : List RunMap) (tols : ToleranceTable) (d : ℚ)
    (k : Key) (r : Record)
    (h : alookup (aggregate_runs runMaps tols d).1 k = some r) :
    r.ValueText = [] ∨ r.ValueNumeric = none := by
  unfold aggregate_runs at h
  by_cases hemp : runMaps.isEmpty
  · rw [if_pos hemp] at h
    cases h
  · rw [if_neg hemp] at h
    dsimp only at h
    rw [alookup_harmonize, aggregate_fold_lookup] at h
    by_cases hk : k ∈ sortedCombinedKeys runMaps
    · rw [if_pos hk] at h
      rcases hrk : reconcileKey runMaps tols d k with _ | ⟨m, is⟩
      · rw [hrk] at h
        simp [optOr, alookup] at h
      · rw [hrk] at h
        simp only [optOr, Option.map_some, alookup] at h
        injection h with h
        rcases reconcileKey_value_exclusive runMaps tols d k m is hrk with hvt | hvn
        · left
          rw [← h]
          exact hvt
        · right
          rw [← h]
          exact hvn
    · rw [if_neg hk] at h
      simp [alookup] at h

/-- Witness for C10: a concrete two-run aggregation in which the winning
text value "Snow" forces the merged numeric slot to `none`. -/
theorem c10_witness :
    alookup
      (aggregate_runs
        [[((("f").data, 1, ("Precip").data, ("Precipitation").data, ("Type").data, 0, ("18:00").data),
           { SourceFile := ("f").data, Page := 1, Location := [],
             Section := ("Precip").data, Measurement := ("Precipitation").data,
             MeasurementType := ("Type").data, Units := [],
             HourLabel := ("18:00").data, HourIndex := 0,
             ValueNumeric := none, ValueText := ("Snow").data, Notes := [] })],
         [((("f").data, 1, ("Precip").data, ("Precipitation").data, ("Type").data, 0, ("18:00").data),
           { SourceFile := ("f").data, Page := 1, Location := [],
             Section := ("Precip").data, Measurement := ("Precipitation").data,
             MeasurementType := ("Type").data, Units := [],
             HourLabel := ("18:00").data, HourIndex := 0,
             ValueNumeric := some 0, ValueText := [], Notes := [] })]]
        [] 1).1
      ((("f").data, 1, ("Precip").data, ("Precipitation").data, ("Type").data, 0, ("18:00").data)) =
      some { SourceFile := ("f").data, Page := 1, Location := [],
             Section := ("Precip").data, Measurement := ("Precipitation").data,
             MeasurementType := ("Type").data, Units := [],
             HourLabel := ("18:00").data, HourIndex := 0,
             ValueNumeric := none, ValueText := ("Snow").data, Notes := [] } ∧
    (({ SourceFile := ("f").data, Page := 1, Location := [],
        Section := ("Precip").data, Measurement := ("Precipitation").data,
        MeasurementType := ("Type").data, Units := [],
        HourLabel := ("18:00").data, HourIndex := 0,
        ValueNumeric := none, ValueText := ("Snow").data, Notes := [] } : Record).ValueText = [] ∨
     ({ SourceFile := ("f").data, Page := 1, Location := [],
        Section := ("Precip").data, Measurement := ("Precipitation").data,
        MeasurementType := ("Type").data, Units := [],
        HourLabel := ("18:00").data, HourIndex := 0,
        ValueNumeric := none, ValueText := ("Snow").data, Notes := [] } : Record).ValueNumeric = none) :=
  ⟨by decide,
   c10_value_slot_exclusive
     [[((("f").data, 1, ("Precip").data, ("Precipitation").data, ("Type").data, 0, ("18:00").data),
        { SourceFile := ("f").data, Page := 1, Location := [],
          Section := ("Precip").data, Measurement := ("Precipitation").data,
          MeasurementType := ("Type").data, Units := [],
          HourLabel := ("18:00").data, HourIndex := 0,
          ValueNumeric := none, ValueText := ("Snow").data, Notes := [] })],
      [((("f").data, 1, ("Precip").data, ("Precipitation").data, ("Type").data, 0, ("18:00").data),
        { SourceFile := ("f").data, Page := 1, Location := [],
          Section := ("Precip").data, Measurement := ("Precipitation").data,
          MeasurementType := ("Type").data, Units := [],
          HourLabel := ("18:00").data, HourIndex := 0,
          ValueNumeric := some 0, ValueText := [], Notes := [] })]]
     [] 1
     ((("f").data, 1, ("Precip").data, ("Precipitation").data, ("Type").data, 0, ("18:00").data))
     { SourceFile := ("f").data, Page := 1, Location := [],
       Section := ("Precip").data, Measurement := ("Precipitation").data,
       MeasurementType := ("Type").data, Units := [],
       HourLabel := ("18:00").data, HourIndex := 0,
       ValueNumeric := none, ValueText := ("Snow").data, Notes := [] }
     (by decide)⟩

/-! ### Claim C8 — validity filter -/

theorem alookup_counterUpdate {α : Type} [DecidableEq α] (c : List (α × Nat)) (x y : α) :
    (alookup (counterUpdate c x) y).getD 0 =
      (alookup c y).getD 0 + (if x = y then 1 else 0) := by
  induction c with
  | nil =>
    by_cases h : x = y
    · subst h
      simp [counterUpdate, alookup]
    · simp [counterUpdate, alookup, h]
  | cons kv t ih =>
    obtain ⟨k, n⟩ := kv
    by_cases hkx : k = x
    · subst hkx
      by_cases hky : k = y
      · subst hky
        simp [counterUpdate, alookup]
      · simp [counterUpdate, alookup, hky]
    · by_cases hky : k = y
      · subst hky
        have hxk : ¬ x = k := fun h => hkx h.symm
        simp [counterUpdate, alookup, hkx, hxk]
      · simp [counterUpdate, alookup, hkx, hky, ih]

theorem alookup_pyCounter_aux {α : Type} [DecidableEq α] (l : List α) :
    ∀ (c : List (α × Nat)) (y : α),
      (alookup (l.foldl counterUpdate c) y).getD 0 = (alookup c y).getD 0 + countOcc l y := by
  induction l with
  | nil =>
    intro c y
    simp [countOcc]
  | cons a t ih =>
    intro c y
    rw [List.foldl_cons, ih, alookup_counterUpdate]
    unfold countOcc
    rw [List.count_cons]
    by_cases h : a = y
    · subst h
      simp
      omega
    · have h' : ¬ (y == a) = true := by
        simp only [beq_iff_eq]
        exact fun hc => h hc.symm
      simp [h, h']

theorem alookup_pyCounter {α : Type} [DecidableEq α] (l : List α) (y : α) :
    (alookup (pyCounter l) y).getD 0 = countOcc l y := by
  unfold pyCounter
  rw [alookup_pyCounter_aux]
  simp [alookup]

theorem mkInvalidSummary_counts (invalid : List InvalidEntry) :
    (mkInvalidSummary invalid).total_invalid = invalid.length ∧
    ∀ r : Str, (alookup (mkInvalidSummary invalid).reasons r).getD 0 =
      countOcc (invalid.map InvalidEntry.reason) r := by
  constructor
  · rfl
  · intro r
    exact alookup_pyCounter (invalid.map InvalidEntry.reason) r

theorem load_structured_invalid_mem (entries : List ResultEntry) (e : ResultEntry)
    (he : e ∈ entries) (hf : e.file ≠ []) (hp : e.page ≠ 0) (hk : e.kind ∈ EXTRACT_KINDS)
    (hv : (_validate_series e.kind (perKindPayload e.parsed)).1 = false) :
    ({ file := e.file, page := e.page, kind := e.kind,
       reason := (_validate_series e.kind (perKindPayload e.parsed)).2.2 } : InvalidEntry) ∈
      load_structured_invalid entries := by
  unfold load_structured_invalid
  rw [List.mem_flatMap]
  refine ⟨e, he, ?_⟩
  have hkc : e.kind ≠ ("combined").data := by
    intro hc
    rw [hc] at hk
    exact absurd hk (by decide)
  simp [hf, hp, hkc, hk, hv]

theorem normalize_series_hours_wind (p : SeriesPayload) :
    (_normalize_series (("wind").data) p).hours = p.hours := by
  simp only [_normalize_series]
  rw [if_neg (by decide)]

theorem normalize_series_hours_temp (p : SeriesPayload) :
    (_normalize_series (("temperature").data) p).hours = p.hours := by
  simp only [_normalize_series]
  rw [if_neg (by decide)]

theorem normalize_series_hours_precip (p : SeriesPayload) :
    (_normalize_series (("precipitation").data) p).hours =
      p.hours.map (fun h =>
        { h with precip_type := normalize_precip_type (some h.precip_type) }) := by
  simp only [_normalize_series]
  rw [if_pos trivial]

theorem all_zero_wind (p : SeriesPayload) (hne : p.hours ≠ []) :
    _series_all_zero (("wind").data) (_normalize_series (("wind").data) p) =
      p.hours.all (fun h => h.wind_speed_mph.getD 0 == 0 && h.wind_gust_mph.getD 0 == 0) := by
  unfold _series_all_zero
  rw [normalize_series_hours_wind]
  rw [if_neg (by simp [List.isEmpty_iff, hne]), if_pos rfl]

theorem all_zero_temp (p : SeriesPayload) (hne : p.hours ≠ []) :
    _series_all_zero (("temperature").data) (_normalize_series (("temperature").data) p) =
      p.hours.all (fun h =>
        h.air_temp_c.getD 0 == 0 && h.freezing_level_m.getD 0 == 0 &&
        h.wet_bulb_freezing_level_m.getD 0 == 0) := by
  unfold _series_all_zero
  rw [normalize_series_hours_temp]
  rw [if_neg (by simp [List.isEmpty_iff, hne]), if_neg (by decide), if_neg (by decide),
    if_pos rfl]

theorem all_zero_precip (p : SeriesPayload) (hne : p.hours ≠ []) :
    _series_all_zero (("precipitation").data) (_normalize_series (("precipitation").data) p) =
      p.hours.all (fun h => h.rain_mm.getD 0 == 0 && h.snow_cm.getD 0 == 0) := by
  unfold _series_all_zero
  rw [normalize_series_hours_precip]
  rw [if_neg (by simp [List.isEmpty_iff, hne]), if_neg (by decide), if_pos rfl]
  rw [List.all_map]
  rfl

theorem validate_reject_iff (kind : Str) (p : SeriesPayload) (pred : HourEntry → Bool)
    (hemp_iff : ((_normalize_series kind p).hours = [] ↔ p.hours = []))
    (hz : p.hours ≠ [] →
      _series_all_zero kind (_normalize_series kind p) = p.hours.all pred) :
    ((_validate_series kind p).1 = false ↔
      (p.hours = [] ∨ ∀ h ∈ p.hours, pred h = true)) ∧
    (p.hours = [] → (_validate_series kind p).2.2 = ("empty_hours").data) ∧
    (p.hours ≠ [] → (_validate_series kind p).1 = false →
      (_validate_series kind p).2.2 = ("all_zero_series").data) ∧
    ((_validate_series kind p).1 = true → (_validate_series kind p).2.2 = []) := by
  by_cases hemp : p.hours = []
  · have hne : (_normalize_series kind p).hours.isEmpty = true :=
      List.isEmpty_iff.mpr (hemp_iff.mpr hemp)
    have hval : _validate_series kind p =
        (false, _normalize_series kind p, ("empty_hours").data) := by
      simp only [_validate_series]
      rw [if_pos hne]
    refine ⟨?_, ?_, ?_, ?_⟩
    · rw [hval]
      exact iff_of_true rfl (Or.inl hemp)
    · intro _
      rw [hval]
    · intro hne' _
      exact absurd hemp hne'
    · intro htrue
      rw [hval] at htrue
      cases htrue
  · have hne : (_normalize_series kind p).hours.isEmpty = false := by
      rcases hl : (_normalize_series kind p).hours with _ | ⟨a, t⟩
      · exact absurd (hemp_iff.mp hl) hemp
      · rfl
    by_cases hall : p.hours.all pred = true
    · have hcond : _series_all_zero kind (_normalize_series kind p) = true := by
        rw [hz hemp]
        exact hall
      have hval : _validate_series kind p =
          (false, _normalize_series kind p, ("all_zero_series").data) := by
        simp only [_validate_series]
        rw [if_neg (by simp [hne]), if_pos hcond]
      refine ⟨?_, ?_, ?_, ?_⟩
      · rw [hval]
        refine iff_of_true rfl (Or.inr ?_)
        intro h hm
        exact List.all_eq_true.mp hall h hm
      · intro he
        exact absurd he hemp
      · intro _ _
        rw [hval]
      · intro htrue
        rw [hval] at htrue
        cases htrue
    · have hcond : ¬ (_series_all_zero kind (_normalize_series kind p) = true) := by
        rw [hz hemp]
        exact hall
      have hval : _validate_series kind p = (true, _normalize_series kind p, []) := by
        simp only [_validate_series]
        rw [if_neg (by simp [hne]), if_neg hcond]
      refine ⟨?_, ?_, ?_, ?_⟩
      · rw [hval]
        refine iff_of_false (fun hcontra => Bool.noConfusion hcontra) ?_
        rintro (he | hallP)
        · exact hemp he
        · exact hall (List.all_eq_true.mpr hallP)
      · intro he
        exact absurd he hemp
      · intro _ hfalse
        rw [hval] at hfalse
        cases hfalse
      · intro _
        rw [hval]

/-- C8: a per-series payload is rejected by `_validate_series` exactly
when its hour list is empty or every hour's defining numeric fields for
its kind are zero (wind: speed and gust; precipitation: rain and snow;
temperature: all three fields; an absent field counts as zero); the empty
and all-zero cases record the distinct reasons `"empty_hours"` and
`"all_zero_series"` while accepted payloads record no reason; the per-run
summary counts rejections by reason, and every rejected per-series
payload of a results file is recorded (not silently dropped). -/
theorem c8_validity_filter (kind : Str) (p : SeriesPayload)
    (hk : kind ∈ EXTRACT_KINDS) :
    ((_validate_series kind p).1 = false ↔
      (p.hours = [] ∨
        ∀ h ∈ p.hours,
          (kind = ("wind").data →
            h.wind_speed_mph.getD 0 = 0 ∧ h.wind_gust_mph.getD 0 = 0) ∧
          (kind = ("precipitation").data →
            h.rain_mm.getD 0 = 0 ∧ h.snow_cm.getD 0 = 0) ∧
          (kind = ("temperature").data →
            h.air_temp_c.getD 0 = 0 ∧ h.freezing_level_m.getD 0 = 0 ∧
            h.wet_bulb_freezing_level_m.getD 0 = 0))) ∧
    (p.hours = [] → (_validate_series kind p).2.2 = ("empty_hours").data) ∧
    (p.hours ≠ [] → (_validate_series kind p).1 = false →
      (_validate_series kind p).2.2 = ("all_zero_series").data) ∧
    ((_validate_series kind p).1 = true → (_validate_series kind p).2.2 = []) ∧
    ("empty_hours").data ≠ ("all_zero_series").data ∧
    (∀ invalid : List InvalidEntry,
      (mkInvalidSummary invalid).total_invalid = invalid.length ∧
      ∀ r : Str, (alookup (mkInvalidSummary invalid).reasons r).getD 0 =
        countOcc (invalid.map InvalidEntry.reason) r) ∧
    (∀ entries : List ResultEntry, ∀ e ∈ entries,
      e.file ≠ [] → e.page ≠ 0 → e.kind ∈ EXTRACT_KINDS →
      (_validate_series e.kind (perKindPayload e.parsed)).1 = false →
      ({ file := e.file, page := e.page, kind := e.kind,
         reason := (_validate_series e.kind (perKindPayload e.parsed)).2.2 } : InvalidEntry) ∈
        load_structured_invalid entries) := by
  simp only [EXTRACT_KINDS, List.mem_cons, List.not_mem_nil, or_false] at hk
  rcases hk with rfl | rfl | rfl
  · obtain ⟨hiff, hr1, hr2, hr3⟩ :=
      validate_reject_iff (("wind").data) p
        (fun h => h.wind_speed_mph.getD 0 == 0 && h.wind_gust_mph.getD 0 == 0)
        (by rw [normalize_series_hours_wind])
        (fun hne => all_zero_wind p hne)
    refine ⟨?_, hr1, hr2, hr3, by decide, mkInvalidSummary_counts, load_structured_invalid_mem⟩
    rw [hiff]
    constructor
    · rintro (he | hall)
      · exact Or.inl he
      · refine Or.inr (fun h hm => ?_)
        have hh := hall h hm
        simp only [Bool.and_eq_true, beq_iff_eq] at hh
        exact ⟨fun _ => hh, fun hc => absurd hc (by decide), fun hc => absurd hc (by decide)⟩
    · rintro (he | hall)
      · exact Or.inl he
      · refine Or.inr (fun h hm => ?_)
        obtain ⟨h1, h2⟩ := (hall h hm).1 rfl
        simp only [Bool.and_eq_true, beq_iff_eq]
        exact ⟨h1, h2⟩
  · obtain ⟨hiff, hr1, hr2, hr3⟩ :=
      validate_reject_iff (("precipitation").data) p
        (fun h => h.rain_mm.getD 0 == 0 && h.snow_cm.getD 0 == 0)
        (by rw [normalize_series_hours_precip]; simp)
        (fun hne => all_zero_precip p hne)
    refine ⟨?_, hr1, hr2, hr3, by decide, mkInvalidSummary_counts, load_structured_invalid_mem⟩
    rw [hiff]
    constructor
    · rintro (he | hall)
      · exact Or.inl he
      · refine Or.inr (fun h hm => ?_)
        have hh := hall h hm
        simp only [Bool.and_eq_true, beq_iff_eq] at hh
        exact ⟨fun hc => absurd hc (by decide), fun _ => hh, fun hc => absurd hc (by decide)⟩
    · rintro (he | hall)
      · exact Or.inl he
      · refine Or.inr (fun h hm => ?_)
        obtain ⟨h1, h2⟩ := (hall h hm).2.1 rfl
        simp only [Bool.and_eq_true, beq_iff_eq]
        exact ⟨h1, h2⟩
  · obtain ⟨hiff, hr1, hr2, hr3⟩ :=
      validate_reject_iff (("temperature").data) p
        (fun h =>
          h.air_temp_c.getD 0 == 0 && h.freezing_level_m.getD 0 == 0 &&
          h.wet_bulb_freezing_level_m.getD 0 == 0)
        (by rw [normalize_series_hours_temp])
        (fun hne => all_zero_temp p hne)
    refine ⟨?_, hr1, hr2, hr3, by decide, mkInvalidSummary_counts, load_structured_invalid_mem⟩
    rw [hiff]
    constructor
    · rintro (he | hall)
      · exact Or.inl he
      · refine Or.inr (fun h hm => ?_)
        have hh := hall h hm
        simp only [Bool.and_eq_true, beq_iff_eq] at hh
        exact ⟨fun hc => absurd hc (by decide), fun hc => absurd hc (by decide),
          fun _ => ⟨hh.1.1, hh.1.2, hh.2⟩⟩
    · rintro (he | hall)
      · exact Or.inl he
      · refine Or.inr (fun h hm => ?_)
        obtain ⟨h1, h2, h3⟩ := (hall h hm).2.2 rfl
        simp only [Bool.and_eq_true, beq_iff_eq]
        exact ⟨⟨h1, h2⟩, h3⟩

/-- Witness for C8: the all-zero one-hour wind payload satisfies the
rejection biconditional at `kind = "wind"`. -/
theorem c8_witness :
    (("wind").data ∈ EXTRACT_KINDS) ∧
    ((_validate_series (("wind").data) c8SamplePayload).1 = false ↔
      (c8SamplePayload.hours = [] ∨
        ∀ h ∈ c8SamplePayload.hours,
          (("wind").data = ("wind").data →
            h.wind_speed_mph.getD 0 = 0 ∧ h.wind_gust_mph.getD 0 = 0) ∧
          (("wind").data = ("precipitation").data →
            h.rain_mm.getD 0 = 0 ∧ h.snow_cm.getD 0 = 0) ∧
          (("wind").data = ("temperature").data →
            h.air_temp_c.getD 0 = 0 ∧ h.freezing_level_m.getD 0 = 0 ∧
            h.wet_bulb_freezing_level_m.getD 0 = 0))) :=
  ⟨by decide, (c8_validity_filter (("wind").data) c8SamplePayload (by decide)).1⟩

/-! ### Claim C2 — repair validity gating -/

theorem keys_nodup_foldl {κ β γ : Type} [DecidableEq κ]
    (step : List (κ × β) → γ → List (κ × β))
    (hstep : ∀ acc x, ((acc.map Prod.fst).Nodup) → (((step acc x).map Prod.fst).Nodup))
    (l : List γ) :
    ∀ m : List (κ × β), (m.map Prod.fst).Nodup → (((l.foldl step m)).map Prod.fst).Nodup := by
  induction l with
  | nil =>
    intro m h
    exact h
  | cons x t ih =>
    intro m h
    exact ih (step m x) (hstep m x h)

theorem dataframe_to_row_map_keys_nodup (rows : List Record) :
    ((dataframe_to_row_map rows).map Prod.fst).Nodup := by
  unfold dataframe_to_row_map
  exact keys_nodup_foldl _ (fun acc row h => keys_nodup_ainsert _ _ _ h) rows [] (by simp)

/-- C2 counterexample: a repair re-read whose single wind payload is all
zero fails the validity filter and is recorded with reason
`"all_zero_series"`, yet its rows are still written over the FinalRow
map — the wind-speed key's original consensus value 13 is replaced by
the invalid re-read's 0 instead of being retained. -/
theorem c2_counterexample :
    (_validate_series (("wind").data) (perKindPayload c2RerunEntry.parsed)).1 = false ∧
    (applyRerun c2FinalBefore [c2RerunEntry] []).2 =
      [{ file := ("f").data, page := 1, kind := ("wind").data,
         reason := ("all_zero_series").data }] ∧
    (alookup c2FinalBefore c2SpeedKey).map Record.ValueNumeric = some (some 13) ∧
    (alookup (applyRerun c2FinalBefore [c2RerunEntry] []).1 c2SpeedKey).map
      Record.ValueNumeric = some (some 0) := by
  refine ⟨by decide, by decide, by decide, by decide⟩

/-- C2 amended: the repair patch does not gate the overwrite on validity.
`applyRerun` records exactly the re-read's validity failures, and for
every key the patched map binds the re-read row when the re-read produced
one (valid or not) and the prior row otherwise, with only the final
location re-harmonization applied on top. -/
theorem c2_repair_amended (final : List (Key × Record)) (entries : List ResultEntry)
    (dl : List ((Str × Nat) × Str)) :
    (applyRerun final entries dl).2 = load_structured_invalid entries ∧
    ∀ k : Key,
      alookup (applyRerun final entries dl).1 k =
        (optOr (alookup (dataframe_to_row_map (parse_results_rows entries dl)) k)
               (alookup final k)).map
          (fun r => { r with Location := (mostCommon (groupLocs
              (((dataframe_to_row_map (parse_results_rows entries dl)).foldl
                  (fun acc p => ainsert acc p.1 p.2) final).map Prod.snd)
              (graphKeyOf r))).getD [] }) := by
  constructor
  · rfl
  · intro k
    show alookup (harmonize_locations
        ((dataframe_to_row_map (parse_results_rows entries dl)).foldl
          (fun acc p => ainsert acc p.1 p.2) final)) k = _
    rw [alookup_harmonize,
      alookup_foldl_ainsert _ _ _ (dataframe_to_row_map_keys_nodup _)]
